import Mathlib

/-! # Network Event Listener Framework: webhook subscription reconciliation

A shallow embedding of the Go sources under `WebhooksListener/` and a
verification of the statements made about them.

Conventions of the embedding

* a Go `string` is a `String`, a Go `int` an `Int` (no arithmetic is done on
  them here), a Go slice a `List` (the `nil` slice is `[]`);
* a Go `error` is an `Option Error`, `none` being `nil`;
* a Go `map[string]bool` is a function `String → Option Bool`;
* `glog` logging is left out: it has no effect on any value computed.
-/

namespace NetworkEventListener

/-! ## `lib/ListenerConsts.go` -/

namespace lib

def CreateWebhook : String := "/api/nutanix/v3/webhooks"
def ListWebhooks : String := "/api/nutanix/v3/webhooks/list"
def GetWebhook : String := "/api/nutanix/v3/webhooks/{uuid}"
def UpdateWebhook : String := "/api/nutanix/v3/webhooks/"
def DeleteWebhook : String := "/api/nutanix/v3/webhooks/{uuid}"
def GetCurrentUser : String := "/api/nutanix/v3/users/me"
def DefaultListenerPort : String := "8080"
def ListenerCallbackURL : String := "/listener/callback"
def EventConsumerCallbackMethod : String := "OnEvent"
def WebhookNamePrefix : String := "Nutanix_Listener_Webhook_"
def WebhookKind : String := "webhook"

/-! ## `lib/ListenerUtils.go`: `RemoveDuplicates` -/

/-- The Go map `tempMap` of `RemoveDuplicates`: a key is present when the
function gives `some _`. -/
abbrev StringSet := String → Option Bool

/-- The empty map `make(map[string]bool)`. -/
def StringSet.make : StringSet := fun _ => none

/-- The assignment `tempMap[item] = true`. -/
def StringSet.set (m : StringSet) (item : String) : StringSet :=
  fun k => if k = item then some true else m k

/-- The body of the `for _, item := range list` loop of `RemoveDuplicates`,
run over the items still to visit, with the loop state `tempMap`,
`uniqueItems`. -/
def RemoveDuplicates.loop : List String → StringSet → List String → List String
  | [], _, uniqueItems => uniqueItems
  | item :: rest, tempMap, uniqueItems =>
    if (tempMap item).isSome then
      RemoveDuplicates.loop rest tempMap uniqueItems
    else
      RemoveDuplicates.loop rest (tempMap.set item) (uniqueItems ++ [item])

/-- `RemoveDuplicates(list)` of `lib/ListenerUtils.go`. -/
def RemoveDuplicates (list : List String) : List String :=
  RemoveDuplicates.loop list StringSet.make []

/-- The list of the first occurrences of `l`, written from the words of the
statement: position `i` of `l` is kept exactly when the string at `i` does not
occur at an earlier position. -/
def firstOccurrences (l : List String) : List String :=
  ((List.range l.length).filter (fun i => decide (l.getD i "" ∉ l.take i))).map
    (fun i => l.getD i "")

end lib

/-! ## `schemas/WebhooksOperationsSchema.go`, `schemas/WebhooksUtilsSchema.go`

The zero value of a Go struct is the structure with every field at its
default. -/

/-- A Go error value, by its message; the `nil` error is `Option.none`. -/
abbrev Error := String

namespace schema

structure Metadata where
  Kind : String := ""
  SpecVersion : Int := 0
deriving DecidableEq, Repr

structure Resources where
  PostUrl : String := ""
  EventsFilterList : List String := []
deriving DecidableEq, Repr

structure Spec where
  Name : String := ""
  Resources : Resources := {}
  Description : String := ""
deriving DecidableEq, Repr

structure WebhookCreationSpec where
  Metadata : Metadata := {}
  Spec : Spec := {}
  ApiVersion : String := ""
deriving DecidableEq, Repr

structure WebhooksListSpec where
  Kind : String := ""
deriving DecidableEq, Repr

structure CurrentWebhooksMetadata where
  TotalMatches : Int := 0
  Kind : String := ""
  Length : Int := 0
  Offset : Int := 0
deriving DecidableEq, Repr

structure WebhookStatus where
  State : String := ""
deriving DecidableEq, Repr

structure WebhookResources where
  PostURL : String := ""
  EventsFilterList : List String := []
deriving DecidableEq, Repr

structure WebhookSpec where
  Name : String := ""
  Resources : WebhookResources := {}
  Description : String := ""
deriving DecidableEq, Repr

structure WebhookMetadata where
  Kind : String := ""
  UUID : String := ""
  SpecVersion : Int := 0
deriving DecidableEq, Repr

structure Webhook where
  Status : WebhookStatus := {}
  Spec : WebhookSpec := {}
  ApiVersion : String := ""
  Metadata : WebhookMetadata := {}
deriving DecidableEq, Repr

structure CurrentWebhooks where
  ApiVersion : String := ""
  Metadata : CurrentWebhooksMetadata := {}
  Entities : List Webhook := []
deriving DecidableEq, Repr

structure Credentials where
  Username : String := ""
  Password : String := ""
deriving DecidableEq, Repr

/-- The `http.Transport` of a request, as far as the listener sets it. -/
structure Transport where
  InsecureSkipVerify : Bool := false
deriving DecidableEq, Repr

/-- The text held by `Request.RequestData`. The listener only ever stores the
empty string or `string(json.Marshal(spec))` of one of its two request specs
there; `json.Marshal` cannot fail on these structs of strings and integers and
its output determines the spec, so the text is kept as the spec it encodes. -/
inductive RequestData where
  | empty
  | listSpec (spec : WebhooksListSpec)
  | creationSpec (spec : WebhookCreationSpec)
deriving DecidableEq, Repr

structure Request where
  Method : String := ""
  URL : String := ""
  RequestData : RequestData := RequestData.empty
  Credentials : Credentials := {}
  Transport : Option Transport := none
deriving DecidableEq, Repr

end schema

/-! ## The Go runtime and the network -/

/-- An `*http.Response`, as far as the listener reads it: the status code and
the bytes still unread on `Body`. The type `β` of bodies is left open. -/
structure Response (β : Type) where
  StatusCode : Int
  Body : β
deriving DecidableEq, Repr

/-- What a Go call ends in: it returns a value, or it panics on a nil pointer
dereference. -/
inductive Outcome (α : Type) where
  | returned (a : α)
  | panicked
deriving DecidableEq, Repr

/-- The library functions and the network the listener runs against, with
`σ` the state of the world outside the process.

* `NewRequest` is the validation done by `http.NewRequest`: `some err` when it
  rejects the method or the URL;
* `Do` is `httpClient.Do`: it returns the pair `(resp, err)` of Go, either of
  which may be `nil`;
* `eof` is what is left on a body once `ioutil.ReadAll` has drained it;
* `UnmarshalCurrentWebhooks` and `UnmarshalWebhook` are `json.Unmarshal` into
  a `schema.CurrentWebhooks` and into a `schema.Webhook`. -/
structure Runtime (σ β : Type) where
  NewRequest : schema.Request → Option Error
  Do : schema.Request → σ → (Option (Response β) × Option Error) × σ
  eof : β
  UnmarshalCurrentWebhooks : β → Except Error schema.CurrentWebhooks
  UnmarshalWebhook : β → Except Error schema.Webhook

/-- `ioutil.ReadAll(body)`: the bytes read, and the body left behind. -/
def Runtime.ReadAll {σ β : Type} (rt : Runtime σ β) (body : β) : β × β :=
  (body, rt.eof)

/-- `strings.Replace(s, old, new, 1)` on the characters of the strings: the
first occurrence of `old` in `s` is replaced by `new`. -/
def strings.Replace1 (old new : List Char) : List Char → List Char
  | [] => if old.isPrefixOf [] then new else []
  | c :: cs =>
    if old.isPrefixOf (c :: cs) then new ++ (c :: cs).drop old.length
    else c :: strings.Replace1 old new cs

namespace lib

/-! ## `lib/ListenerUtils.go`: `PrepareRequest`, `DoRequest` -/

/-- `PrepareRequest(requestURL, userName, password, httpMethod)`. -/
def PrepareRequest (requestURL userName password httpMethod : String) : schema.Request :=
  { Method := httpMethod
    URL := requestURL
    Credentials := { Username := userName, Password := password }
    Transport := some { InsecureSkipVerify := true } }

/-- `DoRequest(request)`. The two reads of `resp.StatusCode` panic when
`httpClient.Do` gave no response. -/
def DoRequest {σ β : Type} (rt : Runtime σ β) (request : schema.Request) (s : σ) :
    Outcome (Option (Response β) × Option Error) × σ :=
  match rt.NewRequest request with
  | some err => (Outcome.returned (none, some err), s)
  | none =>
    match rt.Do request s with
    | ((none, _), s1) => (Outcome.panicked, s1)
    | ((some resp, err), s1) =>
      if err.isSome ∨ resp.StatusCode ≠ 200 then
        if resp.StatusCode ≠ 202 then
          let respData := (rt.ReadAll resp.Body).1
          (Outcome.returned (some { resp with Body := respData }, err), s1)
        else
          (Outcome.returned (some resp, err), s1)
      else
        (Outcome.returned (some resp, err), s1)

end lib

/-! ## `webhook/WebhooksListener.go` -/

/-- The listener, with the fields that reconciliation reads. -/
structure WebhooksListener where
  ListenerPort : String := ""
  clusterIp : String := ""
  clusterPort : String := ""
  clusterUsername : String := ""
  clusterPassword : String := ""
  listenerIp : String := ""
deriving DecidableEq, Repr

def pendingStatus : String := "PENDING"
def completeStatus : String := "COMPLETE"
def pendingStatusCode : Int := 202

namespace WebhooksListener

/-- `fmt.Sprintf("https://%s:%s%s", clusterIp, clusterPort, path)`. -/
def clusterURL (webhooksListener : WebhooksListener) (path : String) : String :=
  "https://" ++ webhooksListener.clusterIp ++ ":" ++ webhooksListener.clusterPort ++ path

/-- The callback URL `postUrl` computed by `createOrUpdateWebhook`. -/
def postUrl (webhooksListener : WebhooksListener) : String :=
  "http://" ++ webhooksListener.listenerIp ++ ":" ++ webhooksListener.ListenerPort ++
    lib.ListenerCallbackURL

/-- The name `webhookName` computed by `createOrUpdateWebhook`. -/
def webhookName (webhooksListener : WebhooksListener) : String :=
  lib.WebhookNamePrefix ++ webhooksListener.listenerIp

namespace createOrUpdateWebhook

/-- The first request of `createOrUpdateWebhook`: the listing of the
webhooks. -/
def listRequest (webhooksListener : WebhooksListener) : schema.Request :=
  { lib.PrepareRequest (webhooksListener.clusterURL lib.ListWebhooks)
      webhooksListener.clusterUsername webhooksListener.clusterPassword "POST" with
    RequestData := schema.RequestData.listSpec { Kind := lib.WebhookKind } }

/-- The loop `for _, webhook := range currentWebhooks.Entities`: the value of
`webhookToUpdate` after it, the zero webhook when no entity matched. -/
def webhookToUpdate (postUrl : String) : List schema.Webhook → schema.Webhook
  | [] => {}
  | webhook :: rest =>
    if webhook.Spec.Resources.PostURL = postUrl then webhook
    else webhookToUpdate postUrl rest

/-- The value of `webhookCreationSpec` once its fields are assigned. -/
def webhookCreationSpec (webhooksListener : WebhooksListener) (eventList : List String)
    (specVersion : Int) : schema.WebhookCreationSpec :=
  { Metadata := { Kind := lib.WebhookKind, SpecVersion := specVersion }
    Spec := { Name := webhooksListener.webhookName
              Resources := { PostUrl := webhooksListener.postUrl
                             EventsFilterList := eventList } }
    ApiVersion := "3.0" }

/-- The end of the request construction, common to both branches: the
creation spec, `PrepareRequest` and the assignment of `RequestData`. -/
def prepare (webhooksListener : WebhooksListener) (requestURL requestMethod : String)
    (eventList : List String) (specVersion : Int) : schema.Request :=
  { lib.PrepareRequest requestURL webhooksListener.clusterUsername
      webhooksListener.clusterPassword requestMethod with
    RequestData := schema.RequestData.creationSpec
      (webhookCreationSpec webhooksListener eventList specVersion) }

/-- The create or update request that `createOrUpdateWebhook` builds from the
decoded listing `currentWebhooks` and the events asked for. -/
def webhookRequest (webhooksListener : WebhooksListener)
    (currentWebhooks : schema.CurrentWebhooks) (events : List String) : schema.Request :=
  let webhookToUpdate := webhookToUpdate webhooksListener.postUrl currentWebhooks.Entities
  if webhookToUpdate.Metadata.UUID = "" then
    prepare webhooksListener (webhooksListener.clusterURL lib.CreateWebhook) "POST" events 0
  else
    prepare webhooksListener
      (webhooksListener.clusterURL lib.UpdateWebhook ++ webhookToUpdate.Metadata.UUID) "PUT"
      (lib.RemoveDuplicates (webhookToUpdate.Spec.Resources.EventsFilterList ++ events))
      webhookToUpdate.Metadata.SpecVersion

/-- The get-by-ID request of the confirmation step. -/
def getRequest (webhooksListener : WebhooksListener) (uuid : String) : schema.Request :=
  lib.PrepareRequest
    (String.mk (strings.Replace1 "{uuid}".data uuid.data
      (webhooksListener.clusterURL lib.GetWebhook).data))
    webhooksListener.clusterUsername webhooksListener.clusterPassword "GET"

/-- The end of `createOrUpdateWebhook`: the create or update request is
submitted and, on a pending answer, confirmed once. -/
def submit {σ β : Type} (rt : Runtime σ β) (webhooksListener : WebhooksListener)
    (request : schema.Request) (s : σ) : Outcome (Option Error) × σ :=
  match lib.DoRequest rt request s with
  | (Outcome.panicked, s1) => (Outcome.panicked, s1)
  | (Outcome.returned (_, some err), s1) => (Outcome.returned (some err), s1)
  | (Outcome.returned (none, none), s1) => (Outcome.panicked, s1)
  | (Outcome.returned (some response, none), s1) =>
    if response.StatusCode = pendingStatusCode then
      match rt.UnmarshalWebhook (rt.ReadAll response.Body).1 with
      | Except.error err => (Outcome.returned (some err), s1)
      | Except.ok webhook =>
        if webhook.Status.State = pendingStatus then
          match lib.DoRequest rt (getRequest webhooksListener webhook.Metadata.UUID) s1 with
          | (Outcome.panicked, s2) => (Outcome.panicked, s2)
          | (Outcome.returned (_, some err), s2) => (Outcome.returned (some err), s2)
          | (Outcome.returned (none, none), s2) => (Outcome.panicked, s2)
          | (Outcome.returned (some response, none), s2) =>
            match rt.UnmarshalWebhook (rt.ReadAll response.Body).1 with
            | Except.error err => (Outcome.returned (some err), s2)
            | Except.ok _ => (Outcome.returned none, s2)
        else
          (Outcome.returned none, s1)
    else
      (Outcome.returned none, s1)

end createOrUpdateWebhook

/-- `webhooksListener.createOrUpdateWebhook(events)`: the error returned (or
the panic) and the world it leaves. -/
def createOrUpdateWebhook {σ β : Type} (rt : Runtime σ β)
    (webhooksListener : WebhooksListener) (events : List String) (s : σ) :
    Outcome (Option Error) × σ :=
  match lib.DoRequest rt (createOrUpdateWebhook.listRequest webhooksListener) s with
  | (Outcome.panicked, s1) => (Outcome.panicked, s1)
  | (Outcome.returned (_, some err), s1) => (Outcome.returned (some err), s1)
  | (Outcome.returned (none, none), s1) => (Outcome.panicked, s1)
  | (Outcome.returned (some response, none), s1) =>
    match rt.UnmarshalCurrentWebhooks (rt.ReadAll response.Body).1 with
    | Except.error err => (Outcome.returned (some err), s1)
    | Except.ok currentWebhooks =>
      createOrUpdateWebhook.submit rt webhooksListener
        (createOrUpdateWebhook.webhookRequest webhooksListener currentWebhooks events) s1

end WebhooksListener

/-- The webhook spec that a request carries as its JSON body, if it carries
one. -/
def schema.Request.creationSpec? (request : schema.Request) :
    Option schema.WebhookCreationSpec :=
  match request.RequestData with
  | schema.RequestData.creationSpec spec => some spec
  | _ => none

/-! ## Sample data -/

namespace Sample

/-- A listener on 10.0.0.5, port 8080, of the cluster 10.0.0.1:9440. -/
def listener : WebhooksListener :=
  { ListenerPort := "8080", clusterIp := "10.0.0.1", clusterPort := "9440"
    clusterUsername := "admin", clusterPassword := "secret", listenerIp := "10.0.0.5" }

/-- A second listener on the same address, port 9090. -/
def listener9090 : WebhooksListener :=
  { listener with ListenerPort := "9090" }

/-- A subscription as the backend lists it. -/
def subscription (uuid postURL : String) (events : List String) (specVersion : Int) :
    schema.Webhook :=
  { Status := { State := "COMPLETE" }
    Spec := { Name := "Nutanix_Listener_Webhook_10.0.0.5"
              Resources := { PostURL := postURL, EventsFilterList := events } }
    ApiVersion := "3.0"
    Metadata := { Kind := "webhook", UUID := uuid, SpecVersion := specVersion } }

/-- A listing of the subscriptions given. -/
def listing (entities : List schema.Webhook) : schema.CurrentWebhooks :=
  { ApiVersion := "3.0"
    Metadata := { TotalMatches := entities.length, Kind := "webhook"
                  Length := entities.length }
    Entities := entities }

end Sample

/-! ## A model of the cluster backend

The cluster is not part of the repository. The statements about what
reconciliation leaves on the backend are made against this model of it: it
keeps the list of subscriptions, answers the listing with all of them, stores a
created subscription under a new non-empty identifier with the fields
submitted, and replaces on update the subscription that has the identifier in
the URL. It also keeps the requests it received, in order. -/

namespace Model

/-- How the backend chooses the identifier of a new subscription: any choice
that is non-empty and not in use. -/
structure UUIDSource where
  next : List schema.Webhook → String
  next_ne_empty : ∀ subs, next subs ≠ ""
  next_fresh : ∀ subs w, w ∈ subs → w.Metadata.UUID ≠ next subs

/-- The backend of a cluster at `ip`, `port`. -/
structure Config where
  ip : String
  port : String
  uuids : UUIDSource

/-- The state of the backend: the subscriptions it holds and the requests it
has received. -/
structure Backend where
  subs : List schema.Webhook := []
  requests : List schema.Request := []
deriving DecidableEq, Repr

/-- The body of an answer of the backend. -/
inductive Body where
  | empty
  | webhooks (c : schema.CurrentWebhooks)
  | webhook (w : schema.Webhook)
deriving DecidableEq, Repr

/-- The address `https://ip:port` of the backend. -/
def Config.base (cfg : Config) : String :=
  "https://" ++ cfg.ip ++ ":" ++ cfg.port

/-- The subscription the backend stores for a submitted spec. -/
def stored (uuid : String) (spec : schema.WebhookCreationSpec) : schema.Webhook :=
  { Status := { State := completeStatus }
    Spec := { Name := spec.Spec.Name
              Resources := { PostURL := spec.Spec.Resources.PostUrl
                             EventsFilterList := spec.Spec.Resources.EventsFilterList }
              Description := spec.Spec.Description }
    ApiVersion := spec.ApiVersion
    Metadata := { Kind := spec.Metadata.Kind, UUID := uuid
                  SpecVersion := spec.Metadata.SpecVersion } }

/-- Whether `req` addresses the subscription `w` by its identifier. -/
def addresses (cfg : Config) (req : schema.Request) (w : schema.Webhook) : Bool :=
  decide (req.URL = cfg.base ++ lib.UpdateWebhook ++ w.Metadata.UUID)

/-- The answer of the backend to `req` and the subscriptions it holds after
it. -/
def handle (cfg : Config) (req : schema.Request) (subs : List schema.Webhook) :
    Response Body × List schema.Webhook :=
  if req.Method = "POST" ∧ req.URL = cfg.base ++ lib.ListWebhooks then
    ({ StatusCode := 200, Body := Body.webhooks { Entities := subs } }, subs)
  else if req.Method = "POST" ∧ req.URL = cfg.base ++ lib.CreateWebhook then
    match req.RequestData with
    | schema.RequestData.creationSpec spec =>
      ({ StatusCode := 200, Body := Body.webhook (stored (cfg.uuids.next subs) spec) },
        subs ++ [stored (cfg.uuids.next subs) spec])
    | _ => ({ StatusCode := 422, Body := Body.empty }, subs)
  else if req.Method = "PUT" then
    match req.RequestData, subs.find? (addresses cfg req) with
    | schema.RequestData.creationSpec spec, some w =>
      ({ StatusCode := 200, Body := Body.webhook (stored w.Metadata.UUID spec) },
        subs.map (fun w1 => if addresses cfg req w1 then stored w1.Metadata.UUID spec else w1))
    | schema.RequestData.creationSpec _, none => ({ StatusCode := 404, Body := Body.empty }, subs)
    | _, _ => ({ StatusCode := 422, Body := Body.empty }, subs)
  else if req.Method = "GET" then
    match subs.find? (addresses cfg req) with
    | some w => ({ StatusCode := 200, Body := Body.webhook w }, subs)
    | none => ({ StatusCode := 404, Body := Body.empty }, subs)
  else
    ({ StatusCode := 405, Body := Body.empty }, subs)

/-- The listener running against the model backend: every request reaches it
and is answered, and a body decodes when it is of the kind asked for. -/
def runtime (cfg : Config) : Runtime Backend Body where
  NewRequest := fun _ => none
  Do := fun req b =>
    ((some (handle cfg req b.subs).1, none),
      { subs := (handle cfg req b.subs).2, requests := b.requests ++ [req] })
  eof := Body.empty
  UnmarshalCurrentWebhooks := fun body =>
    match body with
    | Body.webhooks c => Except.ok c
    | _ => Except.error "json: cannot unmarshal"
  UnmarshalWebhook := fun body =>
    match body with
    | Body.webhook w => Except.ok w
    | _ => Except.error "json: cannot unmarshal"

/-- The backend after one reconciliation by `run.1` for the events `run.2`. -/
def reconcile (cfg : Config) (b : Backend) (run : WebhooksListener × List String) : Backend :=
  (run.1.createOrUpdateWebhook (runtime cfg) run.2 b).2

/-- The subscriptions held are well formed: every identifier is non-empty, no
identifier is held twice and no callback URL is held twice. -/
def WellFormed (subs : List schema.Webhook) : Prop :=
  (∀ w ∈ subs, w.Metadata.UUID ≠ "") ∧
  (subs.map (fun w => w.Metadata.UUID)).Nodup ∧
  (subs.map (fun w => w.Spec.Resources.PostURL)).Nodup

/-- The length of the longest identifier in use. -/
def longest : List schema.Webhook → Nat
  | [] => 0
  | w :: ws => max w.Metadata.UUID.length (longest ws)

/-- An identifier longer than every identifier in use. -/
def longer (subs : List schema.Webhook) : String :=
  String.mk (List.replicate (longest subs + 1) 'u')

/-- The identifiers given by `longer`: a source of identifiers for the model. -/
def uuids : UUIDSource where
  next := longer
  next_ne_empty := by
    intro subs h
    have h1 := congrArg String.length h
    simp [longer, String.length] at h1
  next_fresh := by
    intro subs w hw h
    have hle : ∀ (l : List schema.Webhook), w ∈ l → w.Metadata.UUID.length ≤ longest l := by
      intro l
      induction l with
      | nil => intro hm; cases hm
      | cons x xs ih =>
        intro hm
        rcases List.mem_cons.1 hm with rfl | hm1
        · exact Nat.le_max_left _ _
        · exact Nat.le_trans (ih hm1) (Nat.le_max_right _ _)
    have h1 := congrArg String.length h
    have h2 : (longer subs).length = longest subs + 1 := by
      simp [longer, String.length]
    have h3 := hle subs hw
    omega

end Model

namespace Sample

/-- The model backend of the cluster 10.0.0.1:9440. -/
def backend : Model.Config :=
  { ip := "10.0.0.1", port := "9440", uuids := Model.uuids }

end Sample

/-! ## The requests of a run -/

/-- The runtime `rt` with a log of the requests handed to `httpClient.Do`, in
the order in which they are sent. -/
def Runtime.recording {σ β : Type} (rt : Runtime σ β) :
    Runtime (σ × List schema.Request) β where
  NewRequest := rt.NewRequest
  Do := fun request s =>
    ((rt.Do request s.1).1, ((rt.Do request s.1).2, s.2 ++ [request]))
  eof := rt.eof
  UnmarshalCurrentWebhooks := rt.UnmarshalCurrentWebhooks
  UnmarshalWebhook := rt.UnmarshalWebhook

/-- The requests that `DoRequest` is to send for `request`: the request itself,
once, unless `http.NewRequest` rejects it. -/
def Runtime.sent {σ β : Type} (rt : Runtime σ β) (request : schema.Request) :
    List schema.Request :=
  if (rt.NewRequest request).isSome then [] else [request]

namespace WebhooksListener.createOrUpdateWebhook

/-- The listing that the run decodes from the answer to its list request, with
the world after that answer; `none` when the list call returns an error or no
response, or when the body does not decode. -/
def decodedListing {σ β : Type} (rt : Runtime σ β) (webhooksListener : WebhooksListener)
    (s : σ) : Option (schema.CurrentWebhooks × σ) :=
  match lib.DoRequest rt (listRequest webhooksListener) s with
  | (Outcome.returned (some response, none), s1) =>
    match rt.UnmarshalCurrentWebhooks response.Body with
    | Except.ok currentWebhooks => some (currentWebhooks, s1)
    | Except.error _ => none
  | _ => none

/-- The identifier in the body of a pending answer to `request`: the call
returned a response of status 202 without error and the body decodes to a
webhook in the state `PENDING`; `none` for any other answer. -/
def pendingUUID {σ β : Type} (rt : Runtime σ β) (request : schema.Request) (s : σ) :
    Option String :=
  match lib.DoRequest rt request s with
  | (Outcome.returned (some response, none), _) =>
    if response.StatusCode = 202 then
      match rt.UnmarshalWebhook response.Body with
      | Except.ok webhook =>
        if webhook.Status.State = "PENDING" then some webhook.Metadata.UUID else none
      | Except.error _ => none
    else none
  | _ => none

/-- The requests that one run is to send, written from the words of the
statement: the list request; then, when the listing decodes, the create or
update request built from it; then, exactly when the answer to that request is
pending, one get-by-ID request for the identifier in that answer. -/
def expectedRequests {σ β : Type} (rt : Runtime σ β) (webhooksListener : WebhooksListener)
    (events : List String) (s : σ) : List schema.Request :=
  rt.sent (listRequest webhooksListener) ++
    match decodedListing rt webhooksListener s with
    | none => []
    | some (currentWebhooks, s1) =>
      rt.sent (webhookRequest webhooksListener currentWebhooks events) ++
        match pendingUUID rt (webhookRequest webhooksListener currentWebhooks events) s1 with
        | none => []
        | some uuid => rt.sent (getRequest webhooksListener uuid)

end WebhooksListener.createOrUpdateWebhook

/-! ## `lib/ListenerUtils.go`: `CheckPortAvailability` -/

/-- The sockets of the operating system, as far as the listener uses them,
with `τ` the type of a listening socket: `Listen` is `net.Listen(network,
address)`, `Close` is the `Close` of the socket it gave. -/
structure Sockets (σ τ : Type) where
  Listen : String → String → σ → Except Error τ × σ
  Close : τ → σ → Option Error × σ

/-- The sockets `os` in a world that also carries a log of requests, which
they leave alone. -/
def Sockets.withLog {σ τ : Type} (os : Sockets σ τ) :
    Sockets (σ × List schema.Request) τ where
  Listen := fun network address s =>
    ((os.Listen network address s.1).1, ((os.Listen network address s.1).2, s.2))
  Close := fun socket s => ((os.Close socket s.1).1, ((os.Close socket s.1).2, s.2))

/-- `CheckPortAvailability(port)`. -/
def lib.CheckPortAvailability {σ τ : Type} (os : Sockets σ τ) (port : String) (s : σ) :
    Option Error × σ :=
  match os.Listen "tcp" (":" ++ port) s with
  | (Except.error err, s1) => (some err, s1)
  | (Except.ok testSocket, s1) =>
    match os.Close testSocket s1 with
    | (some err, s2) => (some err, s2)
    | (none, s2) => (none, s2)

/-! ## `webhook/WebhooksListener.go`: `RegisterForEvents` -/

/-- What a call of `RegisterForEvents` leaves: the error returned (or the
panic), the goroutine started by `go webhooksListener.startListener()`, given
by the listener it runs on and the event consumer assigned to it, and the
world. -/
structure Registration (σ κ : Type) where
  result : Outcome (Option Error)
  started : Option (WebhooksListener × κ)
  world : σ

/-- `webhooksListener.RegisterForEvents(events, eventConsumer)`, with `κ` the
type of the event consumer. -/
def WebhooksListener.RegisterForEvents {σ β τ κ : Type} (rt : Runtime σ β)
    (os : Sockets σ τ) (webhooksListener : WebhooksListener) (events : List String)
    (eventConsumer : κ) (s : σ) : Registration σ κ :=
  match lib.CheckPortAvailability os webhooksListener.ListenerPort s with
  | (some err, s1) => { result := Outcome.returned (some err), started := none, world := s1 }
  | (none, s1) =>
    match webhooksListener.createOrUpdateWebhook rt events s1 with
    | (Outcome.panicked, s2) => { result := Outcome.panicked, started := none, world := s2 }
    | (Outcome.returned (some err), s2) =>
      { result := Outcome.returned (some err), started := none, world := s2 }
    | (Outcome.returned none, s2) =>
      { result := Outcome.returned none, started := some (webhooksListener, eventConsumer)
        world := s2 }

/-! ## A model of the ports of the host

The state is the list of the addresses that are bound: `Listen` fails on an
address that is bound and binds it otherwise, `Close` releases it. -/

/-- The ports of the host. -/
def Model.sockets : Sockets (List String) String where
  Listen := fun _ address bound =>
    if address ∈ bound then (Except.error "bind: address already in use", bound)
    else (Except.ok address, address :: bound)
  Close := fun socket bound => (none, bound.erase socket)

/-! ## A scripted backend

The answers of `httpClient.Do` are read off a script, one for each request
sent; once the script is used up the connection fails. The bodies are named
rather than spelled out: `listing-empty` is a listing without entities,
`listing-own` a listing with the webhook `u-1` of the sample listener,
`error-object` a JSON object that reports an error (it has none of the fields
of a listing or of a webhook, so it decodes to the zero value of either),
`webhook-pending` and `webhook-complete` the webhook `u-1` in the state
`PENDING` and `COMPLETE`; any other body is not JSON. -/

namespace Sample

/-- One answer of `httpClient.Do`. -/
abbrev Answer := Option (Response String) × Option Error

/-- The runtime whose answers are read off the script. -/
def scripted : Runtime (List Answer) String where
  NewRequest := fun _ => none
  Do := fun _ script =>
    match script with
    | [] => ((none, some "dial tcp: connection refused"), [])
    | answer :: rest => (answer, rest)
  eof := ""
  UnmarshalCurrentWebhooks := fun body =>
    if body = "listing-empty" then Except.ok {}
    else if body = "error-object" then Except.ok {}
    else if body = "listing-own" then
      Except.ok (listing [subscription "u-1" "http://10.0.0.5:8080/listener/callback"
        ["VM.ON"] 3])
    else Except.error "invalid character"
  UnmarshalWebhook := fun body =>
    if body = "webhook-pending" then
      Except.ok { Status := { State := "PENDING" }, Metadata := { UUID := "u-1" } }
    else if body = "webhook-complete" then
      Except.ok { Status := { State := "COMPLETE" }, Metadata := { UUID := "u-1" } }
    else if body = "error-object" then Except.ok {}
    else Except.error "invalid character"

/-- An answer with the status and the body given, and no error. -/
def answer (status : Int) (body : String) : Answer :=
  (some { StatusCode := status, Body := body }, none)

/-- The scripted backend on a host with ports: the world is the script and the
list of the addresses bound. -/
def hostRuntime : Runtime (List Answer × List String) String where
  NewRequest := scripted.NewRequest
  Do := fun request s => ((scripted.Do request s.1).1, ((scripted.Do request s.1).2, s.2))
  eof := scripted.eof
  UnmarshalCurrentWebhooks := scripted.UnmarshalCurrentWebhooks
  UnmarshalWebhook := scripted.UnmarshalWebhook

/-- The ports of the host of `hostRuntime`. -/
def hostSockets : Sockets (List Answer × List String) String where
  Listen := fun network address s =>
    ((Model.sockets.Listen network address s.2).1,
      (s.1, (Model.sockets.Listen network address s.2).2))
  Close := fun socket s =>
    ((Model.sockets.Close socket s.2).1, (s.1, (Model.sockets.Close socket s.2).2))

end Sample

/-! ## `lib/ListenerConsts.go`: the events -/

namespace lib

def VM_CREATE : String := "VM.CREATE"
def VM_DELETE : String := "VM.DELETE"
def VM_ON : String := "VM.ON"
def VM_OFF : String := "VM.OFF"
def VM_UPDATE : String := "VM.UPDATE"
def VM_MIGRATE : String := "VM.MIGRATE"
def VM_NIC_PLUG : String := "VM.NIC_PLUG"
def VM_NIC_UNPLUG : String := "VM.NIC_UNPLUG"

end lib

/-! ## `schemas/ListenerSchema.go` -/

namespace schema

structure Reference where
  KIND : String := ""
  UUID : String := ""
deriving DecidableEq, Repr

structure IPEndPointList where
  IPAddress : String := ""
deriving DecidableEq, Repr

structure NetworkReference where
  Kind : String := ""
  UUID : String := ""
deriving DecidableEq, Repr

structure HostReference where
  Kind : String := ""
  UUID : String := ""
deriving DecidableEq, Repr

structure NIC where
  IPEndPointList : List IPEndPointList := []
  NetworkReference : NetworkReference := {}
  MACAddress : String := ""
deriving DecidableEq, Repr

structure DiskAddress where
  DeviceIndex : Int := 0
  AdapterType : String := ""
deriving DecidableEq, Repr

structure DeviceProperties where
  DiskAddress : DiskAddress := {}
  DeviceType : String := ""
deriving DecidableEq, Repr

structure DiskList where
  DeviceProperties : DeviceProperties := {}
deriving DecidableEq, Repr

structure EventResources where
  NICList : List NIC := []
  HostReference : HostReference := {}
  HypervisorType : String := ""
  NumVCPUsPerSocket : Int := 0
  NumSockets : Int := 0
  MemorySizeMB : Int := 0
  GPUList : List String := []
  PowerState : String := ""
  DiskList : List DiskList := []
deriving DecidableEq, Repr

structure Status where
  State : String := ""
  Name : String := ""
  Resources : EventResources := {}
deriving DecidableEq, Repr

structure EventSpec where
deriving DecidableEq, Repr

structure OwnerReference where
  Kind : String := ""
  UUID : String := ""
  Name : String := ""
deriving DecidableEq, Repr

structure Categories where
  NetworkFunctionProvider : String := ""
deriving DecidableEq, Repr

structure EventSubMetadata where
  OwnerReference : OwnerReference := {}
  Kind : String := ""
  EntityVersion : Int := 0
  UUID : String := ""
  Categories : Categories := {}
deriving DecidableEq, Repr

structure EventMetadata where
  Status : Status := {}
  Spec : EventSpec := {}
  APIVersion : String := ""
  SubMetadata : EventSubMetadata := {}
deriving DecidableEq, Repr

structure Data where
  Metadata : EventMetadata := {}
deriving DecidableEq, Repr

structure Event where
  EntityReference : Reference := {}
  Data : Data := {}
  Version : String := ""
  Event_Type : String := ""
deriving DecidableEq, Repr

end schema

/-! ## `lib/ListenerUtils.go`: `CheckOutboundConnectivity` -/

/-- The outbound connections of the host: `Dial` is `net.Dial(network,
address)` and gives, for a connection made, the text of
`conn.LocalAddr().String()`. -/
structure Dialer (σ : Type) where
  Dial : String → String → σ → Except Error String × σ

/-- The dialer `net` in a world that also carries a log of requests, which it
leaves alone. -/
def Dialer.withLog {σ : Type} (net : Dialer σ) : Dialer (σ × List schema.Request) where
  Dial := fun network address s =>
    ((net.Dial network address s.1).1, ((net.Dial network address s.1).2, s.2))

/-- The first element of `strings.Split(s, ":")`: the characters of `s` before
its first colon, all of `s` when it has none. -/
def strings.SplitColonFirst (s : String) : String :=
  String.mk (s.data.takeWhile (fun c => c != ':'))

/-- `CheckOutboundConnectivity(remoteIp, remotePort)`. -/
def lib.CheckOutboundConnectivity {σ : Type} (net : Dialer σ) (remoteIp remotePort : String)
    (s : σ) : (String × Option Error) × σ :=
  match net.Dial "tcp" (remoteIp ++ ":" ++ remotePort) s with
  | (Except.error err, s1) => (("", some err), s1)
  | (Except.ok localAddr, s1) => ((strings.SplitColonFirst localAddr, none), s1)

/-! ## `webhook/WebhooksListener.go`: `Initialize` -/

/-- `webhooksListener.Initialize(ip, port, username, password)`. -/
def WebhooksListener.Initialize {σ β : Type} (rt : Runtime σ β) (net : Dialer σ)
    (webhooksListener : WebhooksListener) (ip port username password : String) (s : σ) :
    Outcome (WebhooksListener × Option Error) × σ :=
  let webhooksListener : WebhooksListener :=
    { webhooksListener with
      clusterIp := ip, clusterPort := port
      clusterUsername := username, clusterPassword := password }
  let webhooksListener : WebhooksListener :=
    if webhooksListener.ListenerPort = "" then
      { webhooksListener with ListenerPort := lib.DefaultListenerPort }
    else webhooksListener
  match lib.CheckOutboundConnectivity net webhooksListener.clusterIp
      webhooksListener.clusterPort s with
  | ((_, some err), s1) => (Outcome.returned (webhooksListener, some err), s1)
  | ((localIp, none), s1) =>
    let webhooksListener : WebhooksListener := { webhooksListener with listenerIp := localIp }
    let request := lib.PrepareRequest (webhooksListener.clusterURL lib.GetCurrentUser)
      webhooksListener.clusterUsername webhooksListener.clusterPassword "GET"
    match lib.DoRequest rt request s1 with
    | (Outcome.panicked, s2) => (Outcome.panicked, s2)
    | (Outcome.returned (_, some err), s2) => (Outcome.returned (webhooksListener, some err), s2)
    | (Outcome.returned (none, none), s2) => (Outcome.panicked, s2)
    | (Outcome.returned (some response, none), s2) =>
      if response.StatusCode ≠ 200 then
        (Outcome.returned (webhooksListener,
          some ("Error verifying cluster credentials. HTTP status code : " ++
            toString response.StatusCode)), s2)
      else
        (Outcome.returned (webhooksListener, none), s2)

/-- The listener that `Initialize` is to return, written from the words of the
statement: the port of the receiver, or the default one when that is unset, the
cluster fields given by the arguments, and the local address found. -/
def WebhooksListener.Initialize.expected (webhooksListener : WebhooksListener)
    (ip port username password localIp : String) : WebhooksListener :=
  { ListenerPort :=
      if webhooksListener.ListenerPort = "" then "8080" else webhooksListener.ListenerPort
    clusterIp := ip
    clusterPort := port
    clusterUsername := username
    clusterPassword := password
    listenerIp := localIp }

/-- The credential-check request, written from the words of the statement: a
`GET` of `/api/nutanix/v3/users/me` on the cluster, with the credentials
given. -/
def WebhooksListener.Initialize.credentialCheck (ip port username password : String) :
    schema.Request :=
  { Method := "GET"
    URL := "https://" ++ ip ++ ":" ++ port ++ "/api/nutanix/v3/users/me"
    Credentials := { Username := username, Password := password }
    Transport := some { InsecureSkipVerify := true } }

/-! ## `webhook/WebhooksListener.go`: `onEvent` -/

/-- The value of the field `eventConsumer`, as `reflect` sees it: the nil
interface, a value without a method `OnEvent`, or an event consumer, given by
its `OnEvent` (which returns an error or nil, or panics). -/
inductive Consumer (σ : Type) where
  | nilValue
  | noMethod
  | consumer (OnEvent : schema.Event → σ → Outcome (Option Error) × σ)

/-- The handler `webhooksListener.onEvent(responseWriter, request)`: `body` is
what `ioutil.ReadAll(request.Body)` gives, `UnmarshalEvent` is `json.Unmarshal`
into a `schema.Event`. `reflect.ValueOf` of the nil interface has no type, and
`MethodByName` panics on it. -/
def WebhooksListener.onEvent {σ β : Type} (UnmarshalEvent : β → Except Error schema.Event)
    (eventConsumer : Consumer σ) (body : Except Error β) (s : σ) : Outcome Unit × σ :=
  match body with
  | Except.error _ => (Outcome.returned (), s)
  | Except.ok eventData =>
    match UnmarshalEvent eventData with
    | Except.error _ => (Outcome.returned (), s)
    | Except.ok event =>
      match eventConsumer with
      | Consumer.nilValue => (Outcome.panicked, s)
      | Consumer.noMethod => (Outcome.returned (), s)
      | Consumer.consumer OnEvent =>
        match OnEvent event s with
        | (Outcome.panicked, s1) => (Outcome.panicked, s1)
        | (Outcome.returned _, s1) => (Outcome.returned (), s1)

/-- The event consumer in a world that also carries the list of the events
that its `OnEvent` has been invoked with, one entry for each invocation. -/
def Consumer.withLog {σ : Type} : Consumer σ → Consumer (σ × List schema.Event)
  | Consumer.nilValue => Consumer.nilValue
  | Consumer.noMethod => Consumer.noMethod
  | Consumer.consumer OnEvent =>
    Consumer.consumer (fun event s =>
      ((OnEvent event s.1).1, ((OnEvent event s.1).2, s.2 ++ [event])))

/-! ## `webhook/WebhooksListener.go`: `startListener` -/

/-- An operation on the channel `ListenerState`. -/
inductive ChanOp where
  | send (message : String)
  | close
deriving DecidableEq, Repr

/-- How a run ends: it returns, it panics, or it blocks for ever. -/
inductive Run (α : Type) where
  | returned (a : α)
  | panicked
  | blocked
deriving DecidableEq, Repr

/-- The channel `ListenerState`: the operations done on it so far, whether it
is closed, and how many more messages its receiver is going to take (a send
beyond them blocks for ever, as does every send on a nil channel). -/
structure Chan where
  ops : List ChanOp := []
  closed : Bool := false
  room : Nat := 0
deriving DecidableEq, Repr

/-- The send `ch <- message`: it panics on a closed channel. -/
def Chan.send (message : String) (ch : Chan) : Run Unit × Chan :=
  if ch.closed then (Run.panicked, ch)
  else if ch.room = 0 then (Run.blocked, ch)
  else (Run.returned (),
    { ch with ops := ch.ops ++ [ChanOp.send message], room := ch.room - 1 })

/-- The call `close(ch)`: it panics on a closed channel. -/
def Chan.close (ch : Chan) : Run Unit × Chan :=
  if ch.closed then (Run.panicked, ch)
  else (Run.returned (), { ch with ops := ch.ops ++ [ChanOp.close], closed := true })

/-- The HTTP server of `net/http`: `HandleFunc` registers the handler of a
pattern and panics when the pattern is registered already; `ListenAndServe`
serves, and gives the error it returns with, or `none` when it never
returns. -/
structure Server (σ : Type) where
  HandleFunc : String → σ → Outcome Unit × σ
  ListenAndServe : String → σ → Option (Option Error) × σ

/-- `webhooksListener.startListener()`, on the channel `ListenerState` in the
state `ch`. -/
def WebhooksListener.startListener {σ : Type} (srv : Server σ)
    (webhooksListener : WebhooksListener) (s : σ) (ch : Chan) :
    Run (Option Error) × σ × Chan :=
  let webhooksListener : WebhooksListener :=
    if webhooksListener.ListenerPort = "" then
      { webhooksListener with ListenerPort := lib.DefaultListenerPort }
    else webhooksListener
  match ch.send "Starting HTTP Listener .." with
  | (Run.panicked, ch1) => (Run.panicked, s, ch1)
  | (Run.blocked, ch1) => (Run.blocked, s, ch1)
  | (Run.returned _, ch1) =>
    let webhooksListener : WebhooksListener :=
      { webhooksListener with ListenerPort := ":" ++ webhooksListener.ListenerPort }
    match srv.HandleFunc lib.ListenerCallbackURL s with
    | (Outcome.panicked, s1) => (Run.panicked, s1, ch1)
    | (Outcome.returned _, s1) =>
      match srv.ListenAndServe webhooksListener.ListenerPort s1 with
      | (none, s2) => (Run.blocked, s2, ch1)
      | (some err, s2) =>
        match (match err with
            | some e => ch1.send ("Error occured: " ++ e)
            | none => (Run.returned (), ch1)) with
        | (Run.panicked, ch2) => (Run.panicked, s2, ch2)
        | (Run.blocked, ch2) => (Run.blocked, s2, ch2)
        | (Run.returned _, ch2) =>
          match ch2.send "Listener Closed" with
          | (Run.panicked, ch3) => (Run.panicked, s2, ch3)
          | (Run.blocked, ch3) => (Run.blocked, s2, ch3)
          | (Run.returned _, ch3) =>
            match ch3.close with
            | (Run.panicked, ch4) => (Run.panicked, s2, ch4)
            | (Run.blocked, ch4) => (Run.blocked, s2, ch4)
            | (Run.returned _, ch4) => (Run.returned err, s2, ch4)

/-- The operations of a whole run of `startListener` that ends with the error
`err` of the server, written from the words of the statement: the starting
message, the error message on a server error, the closed message, the close. -/
def WebhooksListener.startListener.protocol (err : Option Error) : List ChanOp :=
  [ChanOp.send "Starting HTTP Listener .."] ++
    (match err with
      | some e => [ChanOp.send ("Error occured: " ++ e)]
      | none => []) ++
    [ChanOp.send "Listener Closed", ChanOp.close]

/-! ## `SamplePlugin`: the `OnEvent` of the two event consumers -/

/-- What `OnEvent` calls, with `γ` the type of the configuration: the loading
of the configuration (`LoadPAFWConfig`, `LoadF5Config`) and the processing of an
event on the appliance (`onVmOn`, `onVmOff`), which returns an error or nil, or
panics. -/
structure Appliance (σ γ : Type) where
  LoadConfig : σ → (γ × Option Error) × σ
  onVmOn : schema.Event → γ → σ → Outcome (Option Error) × σ
  onVmOff : schema.Event → γ → σ → Outcome (Option Error) × σ

/-- `pafwEventConsumer.OnEvent(event)`: in each case of the switch,
`err := onVmOn(...)` declares a new `err`, and the `err` returned at the end is
the one of `LoadPAFWConfig`. -/
def pafweventconsumer.OnEvent {σ γ : Type} (appliance : Appliance σ γ) (event : schema.Event)
    (s : σ) : Outcome (Option Error) × σ :=
  match appliance.LoadConfig s with
  | ((pafwConfig, err), s1) =>
    if err.isSome then (Outcome.returned err, s1)
    else if event.Event_Type = lib.VM_ON then
      match appliance.onVmOn event pafwConfig s1 with
      | (Outcome.panicked, s2) => (Outcome.panicked, s2)
      | (Outcome.returned _, s2) => (Outcome.returned err, s2)
    else if event.Event_Type = lib.VM_OFF then
      match appliance.onVmOff event pafwConfig s1 with
      | (Outcome.panicked, s2) => (Outcome.panicked, s2)
      | (Outcome.returned _, s2) => (Outcome.returned err, s2)
    else (Outcome.returned err, s1)

/-- `f5EventConsumer.OnEvent(event)`: `err = onVmOn(...)` assigns the `err` that
is returned. -/
def consumer.OnEvent {σ γ : Type} (appliance : Appliance σ γ) (event : schema.Event)
    (s : σ) : Outcome (Option Error) × σ :=
  match appliance.LoadConfig s with
  | ((f5Config, err), s1) =>
    if err.isSome then (Outcome.returned err, s1)
    else if event.Event_Type = lib.VM_ON then
      match appliance.onVmOn event f5Config s1 with
      | (Outcome.panicked, s2) => (Outcome.panicked, s2)
      | (Outcome.returned err, s2) => (Outcome.returned err, s2)
    else if event.Event_Type = lib.VM_OFF then
      match appliance.onVmOff event f5Config s1 with
      | (Outcome.panicked, s2) => (Outcome.panicked, s2)
      | (Outcome.returned err, s2) => (Outcome.returned err, s2)
    else (Outcome.returned err, s1)

/-! ## Sample data for the listener at work -/

namespace Sample

/-- A dialer that reaches the cluster from the local address given. -/
def dialFrom (localAddr : String) : Dialer (List Answer) where
  Dial := fun _ _ s => (Except.ok localAddr, s)

/-- A dialer that cannot reach anything. -/
def unreachable : Dialer (List Answer) where
  Dial := fun _ _ s => (Except.error "dial tcp: i/o timeout", s)

/-- The decoding of the body of an inbound request: `vm-on` and `vm-update`
are events of these types for the machine `web-1`, any other body is not
JSON. -/
def UnmarshalEvent (body : String) : Except Error schema.Event :=
  if body = "vm-on" then
    Except.ok { Event_Type := "VM.ON", Data := { Metadata := { Status := { Name := "web-1" } } } }
  else if body = "vm-update" then
    Except.ok
      { Event_Type := "VM.UPDATE", Data := { Metadata := { Status := { Name := "web-1" } } } }
  else Except.error "invalid character"

/-- An event consumer that keeps the events it is given, in order, and returns
nil. -/
def keeping : Consumer (List schema.Event) :=
  Consumer.consumer (fun event events => (Outcome.returned none, events ++ [event]))

/-- A server whose `ListenAndServe` returns with the error given at once. -/
def failing (err : Option Error) : Server Unit where
  HandleFunc := fun _ s => (Outcome.returned (), s)
  ListenAndServe := fun _ s => (some err, s)

/-- A server that serves for ever. -/
def serving : Server Unit where
  HandleFunc := fun _ s => (Outcome.returned (), s)
  ListenAndServe := fun _ s => (none, s)

/-- An appliance whose configuration loads and on which the processing of an
event fails with the error given; the world counts the calls made to it. -/
def refusing (err : Error) : Appliance Nat Unit where
  LoadConfig := fun s => (((), none), s)
  onVmOn := fun _ _ s => (Outcome.returned (some err), s + 1)
  onVmOff := fun _ _ s => (Outcome.returned (some err), s + 1)

end Sample

/-! ## Facts about `RemoveDuplicates` -/

namespace lib

theorem firstOccurrences_nil : firstOccurrences [] = [] := rfl

theorem firstOccurrences_concat (l : List String) (x : String) :
    firstOccurrences (l ++ [x]) =
      if x ∈ l then firstOccurrences l else firstOccurrences l ++ [x] := by
  unfold firstOccurrences
  have hlen : (l ++ [x]).length = l.length + 1 := by simp
  rw [hlen, List.range_succ, List.filter_append, List.map_append]
  have hget : ∀ i, i < l.length → (l ++ [x]).getD i "" = l.getD i "" := by
    intro i hi
    simp [List.getD_eq_getElem?_getD, List.getElem?_append_left hi]
  have htake : ∀ i, i < l.length → (l ++ [x]).take i = l.take i := by
    intro i hi
    rw [List.take_append_of_le_length (Nat.le_of_lt hi)]
  have h1 : (List.range l.length).filter
        (fun i => decide ((l ++ [x]).getD i "" ∉ (l ++ [x]).take i)) =
      (List.range l.length).filter (fun i => decide (l.getD i "" ∉ l.take i)) := by
    apply List.filter_congr
    intro i hi
    rw [List.mem_range] at hi
    rw [hget i hi, htake i hi]
  have h2 : ((List.range l.length).filter (fun i => decide (l.getD i "" ∉ l.take i))).map
        (fun i => (l ++ [x]).getD i "") =
      ((List.range l.length).filter (fun i => decide (l.getD i "" ∉ l.take i))).map
        (fun i => l.getD i "") := by
    apply List.map_congr_left
    intro i hi
    have hi' := List.mem_range.1 (List.mem_of_mem_filter hi)
    exact hget i hi'
  rw [h1, h2]
  have hlast : (l ++ [x]).getD l.length "" = x := by
    simp [List.getD_eq_getElem?_getD]
  have htl : (l ++ [x]).take l.length = l := by simp
  by_cases hx : x ∈ l
  · simp [List.filter_cons, hlast, htl, hx]
  · simp [List.filter_cons, hlast, htl, hx]

theorem mem_firstOccurrences (l : List String) (s : String) :
    s ∈ firstOccurrences l ↔ s ∈ l := by
  induction l using List.reverseRecOn with
  | nil => simp [firstOccurrences_nil]
  | append_singleton l x ih =>
    rw [firstOccurrences_concat]
    by_cases hx : x ∈ l
    · simp only [hx, if_true, ih, List.mem_append, List.mem_singleton]
      constructor
      · intro h; exact Or.inl h
      · rintro (h | h)
        · exact h
        · exact h ▸ hx
    · simp [hx, ih]

theorem nodup_firstOccurrences (l : List String) : (firstOccurrences l).Nodup := by
  induction l using List.reverseRecOn with
  | nil => simp [firstOccurrences_nil]
  | append_singleton l x ih =>
    rw [firstOccurrences_concat]
    by_cases hx : x ∈ l
    · simpa [hx] using ih
    · simp only [hx, if_false]
      rw [List.nodup_append]
      refine ⟨ih, List.nodup_singleton x, ?_⟩
      intro a ha hb
      rw [List.mem_singleton] at hb
      subst hb
      exact hx ((mem_firstOccurrences l a).1 ha)

theorem sublist_firstOccurrences (l : List String) : (firstOccurrences l).Sublist l := by
  induction l using List.reverseRecOn with
  | nil => simp [firstOccurrences_nil]
  | append_singleton l x ih =>
    rw [firstOccurrences_concat]
    by_cases hx : x ∈ l
    · simp only [hx, if_true]
      exact ih.trans (List.sublist_append_left l [x])
    · simp only [hx, if_false]
      exact List.Sublist.append ih (List.Sublist.refl [x])

/-- The loop invariant of `RemoveDuplicates`: once the prefix `pre` has been
visited, `tempMap` holds exactly the strings of `pre` and `uniqueItems` their
first occurrences. -/
theorem RemoveDuplicates.loop_eq (rest pre : List String) (tempMap : StringSet)
    (uniqueItems : List String)
    (hmap : ∀ s, (tempMap s).isSome = true ↔ s ∈ pre)
    (huniq : uniqueItems = firstOccurrences pre) :
    RemoveDuplicates.loop rest tempMap uniqueItems = firstOccurrences (pre ++ rest) := by
  induction rest generalizing pre tempMap uniqueItems with
  | nil => simp [RemoveDuplicates.loop, huniq]
  | cons item rest ih =>
    have happ : pre ++ item :: rest = (pre ++ [item]) ++ rest := by simp
    by_cases hin : item ∈ pre
    · have hs : (tempMap item).isSome = true := (hmap item).2 hin
      rw [RemoveDuplicates.loop, if_pos hs, happ]
      apply ih (pre ++ [item])
      · intro s
        rw [hmap s, List.mem_append, List.mem_singleton]
        constructor
        · intro h; exact Or.inl h
        · rintro (h | h)
          · exact h
          · exact h ▸ hin
      · rw [firstOccurrences_concat, if_pos hin, huniq]
    · have hs : ¬ (tempMap item).isSome = true := fun h => hin ((hmap item).1 h)
      rw [RemoveDuplicates.loop, if_neg hs, happ]
      apply ih (pre ++ [item])
      · intro s
        rw [List.mem_append, List.mem_singleton]
        unfold StringSet.set
        by_cases hsi : s = item
        · simp [hsi]
        · simp [hsi, hmap s]
      · rw [firstOccurrences_concat, if_neg hin, huniq]

theorem RemoveDuplicates_eq_firstOccurrences (l : List String) :
    RemoveDuplicates l = firstOccurrences l := by
  have h := RemoveDuplicates.loop_eq l [] StringSet.make [] (by simp [StringSet.make]) rfl
  simpa [RemoveDuplicates] using h

theorem firstOccurrences_of_nodup (l : List String) (h : l.Nodup) :
    firstOccurrences l = l := by
  induction l using List.reverseRecOn with
  | nil => rfl
  | append_singleton l x ih =>
    rw [List.nodup_append] at h
    have hx : x ∉ l := fun hm => h.2.2 hm (List.mem_singleton_self x)
    rw [firstOccurrences_concat, if_neg hx, ih h.1]

theorem firstOccurrences_append_of_subset (l m : List String) (h : ∀ e ∈ m, e ∈ l) :
    firstOccurrences (l ++ m) = firstOccurrences l := by
  induction m using List.reverseRecOn with
  | nil => simp
  | append_singleton m x ih =>
    have hx : x ∈ l ++ m :=
      List.mem_append_left m (h x (List.mem_append_right m (List.mem_singleton_self x)))
    rw [← List.append_assoc, firstOccurrences_concat, if_pos hx]
    exact ih (fun e he => h e (List.mem_append_left [x] he))

theorem mem_RemoveDuplicates (l : List String) (s : String) :
    s ∈ RemoveDuplicates l ↔ s ∈ l := by
  rw [RemoveDuplicates_eq_firstOccurrences]; exact mem_firstOccurrences l s

theorem nodup_RemoveDuplicates (l : List String) : (RemoveDuplicates l).Nodup := by
  rw [RemoveDuplicates_eq_firstOccurrences]; exact nodup_firstOccurrences l

/-- C1. For every list of strings, `RemoveDuplicates` returns the distinct
strings of the list in the order of their first occurrence: the result holds no
string twice, it holds exactly the strings of the list, it is the list of the
first occurrences (a sublist of the input), and on
`["Unit","Testing","Unit","Testing"]` it is `["Unit","Testing"]`. -/
theorem RemoveDuplicates_first_occurrences (l : List String) :
    (RemoveDuplicates l).Nodup ∧
    (∀ s, s ∈ RemoveDuplicates l ↔ s ∈ l) ∧
    RemoveDuplicates l = firstOccurrences l ∧
    (RemoveDuplicates l).Sublist l ∧
    RemoveDuplicates ["Unit", "Testing", "Unit", "Testing"] = ["Unit", "Testing"] := by
  refine ⟨nodup_RemoveDuplicates l, mem_RemoveDuplicates l,
    RemoveDuplicates_eq_firstOccurrences l, ?_, by decide⟩
  rw [RemoveDuplicates_eq_firstOccurrences]
  exact sublist_firstOccurrences l

end lib

/-! ## Strings -/

theorem String.append_left_cancel_iff (a x y : String) : a ++ x = a ++ y ↔ x = y := by
  constructor
  · intro h
    have h1 := congrArg String.data h
    simp only [String.data_append] at h1
    exact String.ext (List.append_cancel_left h1)
  · intro h; rw [h]

theorem String.append_right_cancel_iff (x y a : String) : x ++ a = y ++ a ↔ x = y := by
  constructor
  · intro h
    have h1 := congrArg String.data h
    simp only [String.data_append] at h1
    exact String.ext (List.append_cancel_right h1)
  · intro h; rw [h]

/-- The create path is not the update path of any identifier. -/
theorem lib.CreateWebhook_ne_UpdateWebhook (u : String) :
    lib.CreateWebhook ≠ lib.UpdateWebhook ++ u := by
  intro h
  have h1 := congrArg String.length h
  rw [String.length_append] at h1
  have e1 : lib.CreateWebhook.length = 24 := by rfl
  have e2 : lib.UpdateWebhook.length = 25 := by rfl
  omega

namespace WebhooksListener

theorem clusterURL_eq_iff (l : WebhooksListener) (x y : String) :
    l.clusterURL x = l.clusterURL y ↔ x = y := by
  unfold clusterURL
  exact String.append_left_cancel_iff _ x y

theorem clusterURL_CreateWebhook_ne (l : WebhooksListener) (u : String) :
    l.clusterURL lib.CreateWebhook ≠ l.clusterURL lib.UpdateWebhook ++ u := by
  unfold clusterURL
  rw [String.append_assoc _ lib.UpdateWebhook u, Ne, String.append_left_cancel_iff]
  exact lib.CreateWebhook_ne_UpdateWebhook u

namespace createOrUpdateWebhook

/-! ## The request built by `createOrUpdateWebhook` -/

/-- After the loop, `webhookToUpdate` is the first listed webhook whose
`post_url` is the callback URL, and the zero webhook when there is none. -/
theorem webhookToUpdate_eq_find (p : String) (es : List schema.Webhook) :
    webhookToUpdate p es =
      (es.find? (fun x => decide (x.Spec.Resources.PostURL = p))).getD {} := by
  induction es with
  | nil => rfl
  | cons w rest ih =>
    by_cases h : w.Spec.Resources.PostURL = p
    · simp [webhookToUpdate, List.find?, h]
    · simp [webhookToUpdate, List.find?, h, ih]

theorem webhookToUpdate_of_find (p : String) (es : List schema.Webhook) (w : schema.Webhook)
    (h : es.find? (fun x => decide (x.Spec.Resources.PostURL = p)) = some w) :
    webhookToUpdate p es = w := by
  rw [webhookToUpdate_eq_find, h]; rfl

theorem webhookToUpdate_of_no_match (p : String) (es : List schema.Webhook)
    (h : ∀ w ∈ es, w.Spec.Resources.PostURL ≠ p) :
    webhookToUpdate p es = {} := by
  rw [webhookToUpdate_eq_find]
  have : es.find? (fun x => decide (x.Spec.Resources.PostURL = p)) = none := by
    rw [List.find?_eq_none]
    intro x hx
    simpa using h x hx
  rw [this]; rfl

theorem webhookRequest_create (l : WebhooksListener) (c : schema.CurrentWebhooks)
    (events : List String)
    (h : (webhookToUpdate l.postUrl c.Entities).Metadata.UUID = "") :
    webhookRequest l c events =
      prepare l (l.clusterURL lib.CreateWebhook) "POST" events 0 := by
  simp [webhookRequest, h]

theorem webhookRequest_update (l : WebhooksListener) (c : schema.CurrentWebhooks)
    (events : List String)
    (h : (webhookToUpdate l.postUrl c.Entities).Metadata.UUID ≠ "") :
    webhookRequest l c events =
      prepare l
        (l.clusterURL lib.UpdateWebhook ++ (webhookToUpdate l.postUrl c.Entities).Metadata.UUID)
        "PUT"
        (lib.RemoveDuplicates
          ((webhookToUpdate l.postUrl c.Entities).Spec.Resources.EventsFilterList ++ events))
        (webhookToUpdate l.postUrl c.Entities).Metadata.SpecVersion := by
  simp [webhookRequest, h]

/-- The request is an update exactly when the webhook found has a non-empty
identifier. -/
theorem webhookRequest_method_put_iff (l : WebhooksListener) (c : schema.CurrentWebhooks)
    (events : List String) :
    (webhookRequest l c events).Method = "PUT" ↔
      (webhookToUpdate l.postUrl c.Entities).Metadata.UUID ≠ "" := by
  by_cases h : (webhookToUpdate l.postUrl c.Entities).Metadata.UUID = ""
  · rw [webhookRequest_create l c events h]
    simp [prepare, lib.PrepareRequest, h]
  · rw [webhookRequest_update l c events h]
    simp [prepare, lib.PrepareRequest, h]

theorem webhookRequest_creationSpec_of_find (l : WebhooksListener)
    (c : schema.CurrentWebhooks) (events : List String) (w : schema.Webhook)
    (hmatch : c.Entities.find?
      (fun x => decide (x.Spec.Resources.PostURL = l.postUrl)) = some w)
    (hupdate : (webhookRequest l c events).Method = "PUT") :
    webhookRequest l c events =
      prepare l (l.clusterURL lib.UpdateWebhook ++ w.Metadata.UUID) "PUT"
        (lib.RemoveDuplicates (w.Spec.Resources.EventsFilterList ++ events))
        w.Metadata.SpecVersion := by
  have hne := (webhookRequest_method_put_iff l c events).1 hupdate
  rw [webhookRequest_update l c events hne, webhookToUpdate_of_find _ _ w hmatch]

/-- C2. Union semantics: when the listing holds a webhook with the callback
URL of the listener (`w` being the first such) and the request built is an
update, the `events_filter_list` of that request is
`RemoveDuplicates(existing ++ desired)`; an event is in it exactly when it is
in the existing filter or among the desired events, so no event of the
existing filter is lost. -/
theorem update_events_union (l : WebhooksListener) (c : schema.CurrentWebhooks)
    (events : List String) (w : schema.Webhook)
    (hmatch : c.Entities.find?
      (fun x => decide (x.Spec.Resources.PostURL = l.postUrl)) = some w)
    (hupdate : (webhookRequest l c events).Method = "PUT") :
    (webhookRequest l c events).creationSpec?.map
        (fun spec => spec.Spec.Resources.EventsFilterList) =
      some (lib.RemoveDuplicates (w.Spec.Resources.EventsFilterList ++ events)) ∧
    (∀ e, e ∈ lib.RemoveDuplicates (w.Spec.Resources.EventsFilterList ++ events) ↔
      e ∈ w.Spec.Resources.EventsFilterList ∨ e ∈ events) ∧
    (∀ e ∈ w.Spec.Resources.EventsFilterList,
      e ∈ lib.RemoveDuplicates (w.Spec.Resources.EventsFilterList ++ events)) := by
  rw [webhookRequest_creationSpec_of_find l c events w hmatch hupdate]
  refine ⟨rfl, ?_, ?_⟩
  · intro e
    rw [lib.mem_RemoveDuplicates, List.mem_append]
  · intro e he
    rw [lib.mem_RemoveDuplicates, List.mem_append]
    exact Or.inl he

/-- Witness of C2: the existing filter `{A}` and the desired events `[B, A]`
give the filter `[A, B]`. -/
theorem update_events_union_witness :
    (Sample.listing [Sample.subscription "u-1" "http://10.0.0.5:8080/listener/callback"
        ["A"] 3]).Entities.find?
      (fun x => decide (x.Spec.Resources.PostURL = Sample.listener.postUrl)) =
      some (Sample.subscription "u-1" "http://10.0.0.5:8080/listener/callback" ["A"] 3) ∧
    (webhookRequest Sample.listener
      (Sample.listing [Sample.subscription "u-1" "http://10.0.0.5:8080/listener/callback"
        ["A"] 3]) ["B", "A"]).creationSpec?.map
        (fun spec => spec.Spec.Resources.EventsFilterList) = some ["A", "B"] := by
  have hm : (Sample.listing [Sample.subscription "u-1" "http://10.0.0.5:8080/listener/callback"
        ["A"] 3]).Entities.find?
      (fun x => decide (x.Spec.Resources.PostURL = Sample.listener.postUrl)) =
      some (Sample.subscription "u-1" "http://10.0.0.5:8080/listener/callback" ["A"] 3) := by
    decide
  refine ⟨hm, ?_⟩
  have h := (update_events_union Sample.listener _ ["B", "A"] _ hm (by decide)).1
  rw [h]
  decide

/-- C4. Re-registering events that are already subscribed leaves the filter
as it is: when the existing filter of the matched webhook `w` has no duplicates
and holds every desired event, the update request carries the existing filter
list, in the same order, and the existing `spec_version`. -/
theorem update_noop_when_subscribed (l : WebhooksListener) (c : schema.CurrentWebhooks)
    (events : List String) (w : schema.Webhook)
    (hmatch : c.Entities.find?
      (fun x => decide (x.Spec.Resources.PostURL = l.postUrl)) = some w)
    (hupdate : (webhookRequest l c events).Method = "PUT")
    (hnodup : w.Spec.Resources.EventsFilterList.Nodup)
    (hsub : ∀ e ∈ events, e ∈ w.Spec.Resources.EventsFilterList) :
    (webhookRequest l c events).creationSpec?.map
        (fun spec => spec.Spec.Resources.EventsFilterList) =
      some w.Spec.Resources.EventsFilterList ∧
    (webhookRequest l c events).creationSpec?.map
        (fun spec => spec.Metadata.SpecVersion) = some w.Metadata.SpecVersion := by
  rw [webhookRequest_creationSpec_of_find l c events w hmatch hupdate]
  refine ⟨?_, rfl⟩
  have h : lib.RemoveDuplicates (w.Spec.Resources.EventsFilterList ++ events) =
      w.Spec.Resources.EventsFilterList := by
    rw [lib.RemoveDuplicates_eq_firstOccurrences,
      lib.firstOccurrences_append_of_subset _ _ hsub, lib.firstOccurrences_of_nodup _ hnodup]
  simp [prepare, webhookCreationSpec, schema.Request.creationSpec?, h]

/-- Witness of C4: the filter `[VM.ON, VM.OFF]` at version 7, asked again for
`[VM.OFF, VM.ON]`. -/
theorem update_noop_when_subscribed_witness :
    (webhookRequest Sample.listener
      (Sample.listing [Sample.subscription "u-1" "http://10.0.0.5:8080/listener/callback"
        ["VM.ON", "VM.OFF"] 7]) ["VM.OFF", "VM.ON"]).creationSpec?.map
        (fun spec => spec.Spec.Resources.EventsFilterList) = some ["VM.ON", "VM.OFF"] ∧
    (webhookRequest Sample.listener
      (Sample.listing [Sample.subscription "u-1" "http://10.0.0.5:8080/listener/callback"
        ["VM.ON", "VM.OFF"] 7]) ["VM.OFF", "VM.ON"]).creationSpec?.map
        (fun spec => spec.Metadata.SpecVersion) = some 7 :=
  update_noop_when_subscribed Sample.listener
    (Sample.listing [Sample.subscription "u-1" "http://10.0.0.5:8080/listener/callback"
      ["VM.ON", "VM.OFF"] 7]) ["VM.OFF", "VM.ON"]
    (Sample.subscription "u-1" "http://10.0.0.5:8080/listener/callback" ["VM.ON", "VM.OFF"] 7)
    (by decide) (by decide) (by decide) (by decide)

/-- C5. Owner scoping: an update request targets the identifier of a listed
webhook whose `post_url` is equal to the callback URL of the listener; and for
a listing with no webhook of that `post_url` the request is a create, a POST to
the create URL, which is the update URL of no identifier at all. -/
theorem update_only_own_webhook (l : WebhooksListener) (c : schema.CurrentWebhooks)
    (events : List String) :
    ((webhookRequest l c events).Method = "PUT" →
      ∃ w ∈ c.Entities, w.Spec.Resources.PostURL = l.postUrl ∧
        (webhookRequest l c events).URL =
          l.clusterURL lib.UpdateWebhook ++ w.Metadata.UUID) ∧
    ((∀ w ∈ c.Entities, w.Spec.Resources.PostURL ≠ l.postUrl) →
      (webhookRequest l c events).Method = "POST" ∧
      (webhookRequest l c events).URL = l.clusterURL lib.CreateWebhook ∧
      ∀ u : String,
        (webhookRequest l c events).URL ≠ l.clusterURL lib.UpdateWebhook ++ u) := by
  constructor
  · intro hput
    have hne := (webhookRequest_method_put_iff l c events).1 hput
    cases hf : c.Entities.find? (fun x => decide (x.Spec.Resources.PostURL = l.postUrl)) with
    | none =>
      rw [webhookToUpdate_eq_find, hf] at hne
      exact absurd rfl hne
    | some w =>
      refine ⟨w, List.mem_of_find?_eq_some hf, ?_, ?_⟩
      · simpa using List.find?_some hf
      · rw [webhookRequest_creationSpec_of_find l c events w hf hput]
        rfl
  · intro hnone
    have hz := webhookToUpdate_of_no_match l.postUrl c.Entities hnone
    have hc := webhookRequest_create l c events (by rw [hz])
    rw [hc]
    refine ⟨rfl, rfl, ?_⟩
    intro u
    exact clusterURL_CreateWebhook_ne l u

/-- Witness of C5: the listing holds only the webhook of the listener on port
9090; the listener on port 8080 asks for the same events and creates. -/
theorem update_only_own_webhook_witness :
    (∀ w ∈ (Sample.listing [Sample.subscription "u-9090"
        "http://10.0.0.5:9090/listener/callback" ["VM.ON"] 1]).Entities,
      w.Spec.Resources.PostURL ≠ Sample.listener.postUrl) ∧
    (webhookRequest Sample.listener (Sample.listing [Sample.subscription "u-9090"
        "http://10.0.0.5:9090/listener/callback" ["VM.ON"] 1]) ["VM.ON"]).Method = "POST" ∧
    (webhookRequest Sample.listener (Sample.listing [Sample.subscription "u-9090"
        "http://10.0.0.5:9090/listener/callback" ["VM.ON"] 1]) ["VM.ON"]).URL ≠
      Sample.listener.clusterURL lib.UpdateWebhook ++ "u-9090" := by
  have hn : ∀ w ∈ (Sample.listing [Sample.subscription "u-9090"
        "http://10.0.0.5:9090/listener/callback" ["VM.ON"] 1]).Entities,
      w.Spec.Resources.PostURL ≠ Sample.listener.postUrl := by decide
  have h := (update_only_own_webhook Sample.listener (Sample.listing [Sample.subscription
    "u-9090" "http://10.0.0.5:9090/listener/callback" ["VM.ON"] 1]) ["VM.ON"]).2 hn
  exact ⟨hn, h.1, h.2.2 "u-9090"⟩

/-- C7. Create path: for a listing with no webhook of the callback URL the
request built is a POST to `https://{clusterIp}:{clusterPort}/api/nutanix/v3/webhooks`
whose body has the name `Nutanix_Listener_Webhook_{listenerIp}`, the `post_url`
`http://{listenerIp}:{ListenerPort}/listener/callback`, the desired events as
given and `spec_version` 0. -/
theorem create_request (l : WebhooksListener) (c : schema.CurrentWebhooks)
    (events : List String)
    (hnone : ∀ w ∈ c.Entities, w.Spec.Resources.PostURL ≠ l.postUrl) :
    webhookRequest l c events =
      { Method := "POST"
        URL := "https://" ++ l.clusterIp ++ ":" ++ l.clusterPort ++ "/api/nutanix/v3/webhooks"
        RequestData := schema.RequestData.creationSpec
          { Metadata := { Kind := "webhook", SpecVersion := 0 }
            Spec := { Name := "Nutanix_Listener_Webhook_" ++ l.listenerIp
                      Resources :=
                        { PostUrl := "http://" ++ l.listenerIp ++ ":" ++ l.ListenerPort ++
                            "/listener/callback"
                          EventsFilterList := events }
                      Description := "" }
            ApiVersion := "3.0" }
        Credentials := { Username := l.clusterUsername, Password := l.clusterPassword }
        Transport := some { InsecureSkipVerify := true } } := by
  have hz := webhookToUpdate_of_no_match l.postUrl c.Entities hnone
  rw [webhookRequest_create l c events (by rw [hz])]
  rfl

/-- Witness of C7: the listing holds only the webhook of the listener on port
9090. -/
theorem create_request_witness :
    (∀ w ∈ (Sample.listing [Sample.subscription "u-9090"
        "http://10.0.0.5:9090/listener/callback" ["VM.ON"] 1]).Entities,
      w.Spec.Resources.PostURL ≠ Sample.listener.postUrl) ∧
    webhookRequest Sample.listener (Sample.listing [Sample.subscription "u-9090"
        "http://10.0.0.5:9090/listener/callback" ["VM.ON"] 1]) ["VM.ON", "VM.OFF"] =
      { Method := "POST"
        URL := "https://10.0.0.1:9440/api/nutanix/v3/webhooks"
        RequestData := schema.RequestData.creationSpec
          { Metadata := { Kind := "webhook", SpecVersion := 0 }
            Spec := { Name := "Nutanix_Listener_Webhook_10.0.0.5"
                      Resources :=
                        { PostUrl := "http://10.0.0.5:8080/listener/callback"
                          EventsFilterList := ["VM.ON", "VM.OFF"] }
                      Description := "" }
            ApiVersion := "3.0" }
        Credentials := { Username := "admin", Password := "secret" }
        Transport := some { InsecureSkipVerify := true } } := by
  have hn : ∀ w ∈ (Sample.listing [Sample.subscription "u-9090"
        "http://10.0.0.5:9090/listener/callback" ["VM.ON"] 1]).Entities,
      w.Spec.Resources.PostURL ≠ Sample.listener.postUrl := by decide
  refine ⟨hn, ?_⟩
  rw [create_request Sample.listener _ ["VM.ON", "VM.OFF"] hn]
  decide

/-- C10 (counterexample). With nothing listed, the desired events
`[VM.ON, VM.ON]` are submitted as they are: the list of the create request
holds `VM.ON` twice. -/
theorem create_keeps_duplicates :
    (webhookRequest Sample.listener (Sample.listing [])
        ["VM.ON", "VM.ON"]).creationSpec?.map
        (fun spec => spec.Spec.Resources.EventsFilterList) = some ["VM.ON", "VM.ON"] ∧
    ¬ (["VM.ON", "VM.ON"] : List String).Nodup := by
  decide

/-- C10 (amended). On the update path the `events_filter_list` submitted holds
no event twice and holds every event of the filter of the matched webhook and
every event asked for; on the create path taken when no listed webhook has the
callback URL it is the list of the desired events as given, so it holds every
event asked for, and it is free of duplicates exactly when that list is. -/
theorem submitted_events (l : WebhooksListener) (c : schema.CurrentWebhooks)
    (events : List String) :
    (∀ w, c.Entities.find?
        (fun x => decide (x.Spec.Resources.PostURL = l.postUrl)) = some w →
      (webhookRequest l c events).Method = "PUT" →
      ∃ list, (webhookRequest l c events).creationSpec?.map
          (fun spec => spec.Spec.Resources.EventsFilterList) = some list ∧
        list.Nodup ∧
        (∀ e ∈ w.Spec.Resources.EventsFilterList, e ∈ list) ∧
        (∀ e ∈ events, e ∈ list)) ∧
    ((∀ w ∈ c.Entities, w.Spec.Resources.PostURL ≠ l.postUrl) →
      (webhookRequest l c events).Method = "POST" ∧
      (webhookRequest l c events).creationSpec?.map
          (fun spec => spec.Spec.Resources.EventsFilterList) = some events) := by
  constructor
  · intro w hmatch hupdate
    refine ⟨lib.RemoveDuplicates (w.Spec.Resources.EventsFilterList ++ events), ?_,
      lib.nodup_RemoveDuplicates _, ?_, ?_⟩
    · rw [webhookRequest_creationSpec_of_find l c events w hmatch hupdate]
      rfl
    · intro e he
      rw [lib.mem_RemoveDuplicates]
      exact List.mem_append_left _ he
    · intro e he
      rw [lib.mem_RemoveDuplicates]
      exact List.mem_append_right _ he
  · intro hnone
    have hz := webhookToUpdate_of_no_match l.postUrl c.Entities hnone
    rw [webhookRequest_create l c events (by rw [hz])]
    exact ⟨rfl, rfl⟩

/-- Witness of C10 (amended): the update of the filter `[VM.ON, VM.OFF]` with
the desired events `[VM.OFF, VM.OFF, VM.UPDATE]` submits a list without
duplicates that holds the three events. -/
theorem submitted_events_witness :
    ∃ list, (webhookRequest Sample.listener
        (Sample.listing [Sample.subscription "u-1" "http://10.0.0.5:8080/listener/callback"
          ["VM.ON", "VM.OFF"] 4]) ["VM.OFF", "VM.OFF", "VM.UPDATE"]).creationSpec?.map
          (fun spec => spec.Spec.Resources.EventsFilterList) = some list ∧
      list.Nodup ∧
      (∀ e ∈ ["VM.ON", "VM.OFF"], e ∈ list) ∧
      (∀ e ∈ ["VM.OFF", "VM.OFF", "VM.UPDATE"], e ∈ list) :=
  (submitted_events Sample.listener
    (Sample.listing [Sample.subscription "u-1" "http://10.0.0.5:8080/listener/callback"
      ["VM.ON", "VM.OFF"] 4]) ["VM.OFF", "VM.OFF", "VM.UPDATE"]).1
    (Sample.subscription "u-1" "http://10.0.0.5:8080/listener/callback" ["VM.ON", "VM.OFF"] 4)
    (by decide) (by decide)

end createOrUpdateWebhook

end WebhooksListener

/-! ## Reconciliation against the model backend -/

namespace WebhooksListener

/-- The create or update request that `createOrUpdateWebhook` submits is
`webhookRequest` of the listing it decoded. -/
theorem createOrUpdateWebhook_of_listing {σ β : Type} (rt : Runtime σ β)
    (l : WebhooksListener) (events : List String) (s s1 : σ) (response : Response β)
    (c : schema.CurrentWebhooks)
    (hlist : lib.DoRequest rt (createOrUpdateWebhook.listRequest l) s =
      (Outcome.returned (some response, none), s1))
    (hjson : rt.UnmarshalCurrentWebhooks response.Body = Except.ok c) :
    l.createOrUpdateWebhook rt events s =
      createOrUpdateWebhook.submit rt l
        (createOrUpdateWebhook.webhookRequest l c events) s1 := by
  simp [createOrUpdateWebhook, hlist, Runtime.ReadAll, hjson]

end WebhooksListener

namespace Model

open WebhooksListener WebhooksListener.createOrUpdateWebhook

theorem DoRequest_runtime (cfg : Config) (req : schema.Request) (b : Backend) :
    lib.DoRequest (runtime cfg) req b =
      (Outcome.returned (some (handle cfg req b.subs).1, none),
        { subs := (handle cfg req b.subs).2, requests := b.requests ++ [req] }) := by
  simp only [lib.DoRequest, runtime, Runtime.ReadAll]
  split_ifs <;> rfl

theorem handle_status (cfg : Config) (req : schema.Request) (subs : List schema.Webhook) :
    (handle cfg req subs).1.StatusCode ≠ 202 := by
  unfold handle
  split_ifs
  · simp
  · split <;> simp
  · split <;> simp
  · split <;> simp
  · simp

theorem submit_runtime (cfg : Config) (l : WebhooksListener) (req : schema.Request)
    (b : Backend) :
    submit (runtime cfg) l req b =
      (Outcome.returned none,
        { subs := (handle cfg req b.subs).2, requests := b.requests ++ [req] }) := by
  simp [submit, DoRequest_runtime, pendingStatusCode, handle_status]

theorem clusterURL_eq_base (cfg : Config) (l : WebhooksListener) (path : String)
    (hip : l.clusterIp = cfg.ip) (hport : l.clusterPort = cfg.port) :
    l.clusterURL path = cfg.base ++ path := by
  unfold WebhooksListener.clusterURL Config.base
  rw [hip, hport]

/-- A listener whose listing URL is that of the backend has every URL on the
backend. -/
theorem clusterURL_eq_base_of (cfg : Config) (l : WebhooksListener) (p q : String)
    (h : l.clusterURL p = cfg.base ++ p) : l.clusterURL q = cfg.base ++ q := by
  unfold WebhooksListener.clusterURL at *
  rw [(String.append_right_cancel_iff _ _ p).1 h]

theorem base_CreateWebhook_ne_ListWebhooks (cfg : Config) :
    cfg.base ++ lib.CreateWebhook ≠ cfg.base ++ lib.ListWebhooks := by
  rw [Ne, String.append_left_cancel_iff]
  decide

theorem handle_listRequest (cfg : Config) (l : WebhooksListener)
    (subs : List schema.Webhook)
    (h : l.clusterURL lib.ListWebhooks = cfg.base ++ lib.ListWebhooks) :
    handle cfg (listRequest l) subs =
      ({ StatusCode := 200, Body := Body.webhooks { Entities := subs } }, subs) := by
  simp [handle, listRequest, lib.PrepareRequest, h]

theorem handle_listRequest_of_ne (cfg : Config) (l : WebhooksListener)
    (subs : List schema.Webhook)
    (h : l.clusterURL lib.ListWebhooks ≠ cfg.base ++ lib.ListWebhooks) :
    (handle cfg (listRequest l) subs).2 = subs ∧
    (handle cfg (listRequest l) subs).1.Body = Body.empty := by
  have h1 : ¬ ("POST" : String) = "PUT" := by decide
  have h2 : ¬ ("POST" : String) = "GET" := by decide
  simp only [handle, listRequest, lib.PrepareRequest, h, h1, h2, and_false, if_false]
  split_ifs <;> simp

theorem handle_create (cfg : Config) (l : WebhooksListener) (subs : List schema.Webhook)
    (eventList : List String) (specVersion : Int)
    (h : l.clusterURL lib.ListWebhooks = cfg.base ++ lib.ListWebhooks) :
    (handle cfg (prepare l (l.clusterURL lib.CreateWebhook) "POST" eventList specVersion)
        subs).2 =
      subs ++ [stored (cfg.uuids.next subs) (webhookCreationSpec l eventList specVersion)] := by
  have h1 := clusterURL_eq_base_of cfg l _ lib.CreateWebhook h
  simp [handle, prepare, lib.PrepareRequest, h1, base_CreateWebhook_ne_ListWebhooks]

theorem addresses_update (cfg : Config) (l : WebhooksListener)
    (u : String) (eventList : List String) (specVersion : Int)
    (h : l.clusterURL lib.ListWebhooks = cfg.base ++ lib.ListWebhooks) (w : schema.Webhook) :
    addresses cfg (prepare l (l.clusterURL lib.UpdateWebhook ++ u) "PUT" eventList
      specVersion) w = decide (w.Metadata.UUID = u) := by
  have h1 := clusterURL_eq_base_of cfg l _ lib.UpdateWebhook h
  simp only [addresses, prepare, lib.PrepareRequest, h1]
  rw [decide_eq_decide, String.append_left_cancel_iff]
  exact eq_comm

theorem handle_update (cfg : Config) (l : WebhooksListener) (subs : List schema.Webhook)
    (u : String) (eventList : List String) (specVersion : Int)
    (h : l.clusterURL lib.ListWebhooks = cfg.base ++ lib.ListWebhooks) :
    (handle cfg (prepare l (l.clusterURL lib.UpdateWebhook ++ u) "PUT" eventList specVersion)
        subs).2 =
      subs.map (fun w =>
        if w.Metadata.UUID = u then
          stored w.Metadata.UUID (webhookCreationSpec l eventList specVersion)
        else w) := by
  have hadd := addresses_update cfg l u eventList specVersion h
  have hput : ¬ ("PUT" : String) = "POST" := by decide
  have hfun : addresses cfg (prepare l (l.clusterURL lib.UpdateWebhook ++ u) "PUT" eventList
      specVersion) = fun w => decide (w.Metadata.UUID = u) := funext hadd
  have hm : (prepare l (l.clusterURL lib.UpdateWebhook ++ u) "PUT" eventList
      specVersion).Method = "PUT" := rfl
  have hd : (prepare l (l.clusterURL lib.UpdateWebhook ++ u) "PUT" eventList
      specVersion).RequestData =
      schema.RequestData.creationSpec (webhookCreationSpec l eventList specVersion) := rfl
  unfold handle
  rw [hfun, hm, hd]
  simp only [hput, false_and, if_false, if_true]
  cases hf : subs.find? (fun w => decide (w.Metadata.UUID = u)) with
  | some w => simp
  | none =>
    simp only
    rw [List.find?_eq_none] at hf
    symm
    conv_rhs => rw [← List.map_id subs]
    apply List.map_congr_left
    intro x hx
    have := hf x hx
    simp at this
    simp [this]

end Model

namespace WebhooksListener.createOrUpdateWebhook

theorem webhookToUpdate_append_of_no_match (p : String) (pre rest : List schema.Webhook)
    (h : ∀ w ∈ pre, w.Spec.Resources.PostURL ≠ p) :
    webhookToUpdate p (pre ++ rest) = webhookToUpdate p rest := by
  induction pre with
  | nil => rfl
  | cons x xs ih =>
    have hx : x.Spec.Resources.PostURL ≠ p := h x (List.mem_cons_self x xs)
    simp only [List.cons_append, webhookToUpdate, hx, if_false]
    exact ih (fun w hw => h w (List.mem_cons_of_mem x hw))

/-- When every listed identifier is non-empty, the loop leaves an empty
identifier only if no listed webhook has the callback URL. -/
theorem no_match_of_uuid_empty (p : String) (es : List schema.Webhook)
    (hne : ∀ w ∈ es, w.Metadata.UUID ≠ "")
    (h : (webhookToUpdate p es).Metadata.UUID = "") :
    ∀ w ∈ es, w.Spec.Resources.PostURL ≠ p := by
  induction es with
  | nil => intro w hw; cases hw
  | cons x xs ih =>
    by_cases hx : x.Spec.Resources.PostURL = p
    · simp only [webhookToUpdate, hx, if_true] at h
      exact absurd h (hne x (List.mem_cons_self x xs))
    · simp only [webhookToUpdate, hx, if_false] at h
      intro w hw
      rcases List.mem_cons.1 hw with rfl | hw1
      · exact hx
      · exact ih (fun w hw => hne w (List.mem_cons_of_mem x hw)) h w hw1

/-- A webhook found with a non-empty identifier is listed and has the callback
URL. -/
theorem webhookToUpdate_mem (p : String) (es : List schema.Webhook)
    (h : (webhookToUpdate p es).Metadata.UUID ≠ "") :
    webhookToUpdate p es ∈ es ∧ (webhookToUpdate p es).Spec.Resources.PostURL = p := by
  induction es with
  | nil => exact absurd rfl h
  | cons x xs ih =>
    by_cases hx : x.Spec.Resources.PostURL = p
    · simp only [webhookToUpdate, hx, if_true]
      exact ⟨List.mem_cons_self x xs, trivial⟩
    · simp only [webhookToUpdate, hx, if_false] at h ⊢
      exact ⟨List.mem_cons_of_mem x (ih h).1, (ih h).2⟩

end WebhooksListener.createOrUpdateWebhook

namespace Model

open WebhooksListener WebhooksListener.createOrUpdateWebhook

/-- One reconciliation by a listener of this cluster: it returns no error, the
backend has received the listing request and the create or update request, and
holds what that request leaves. -/
theorem createOrUpdateWebhook_runtime (cfg : Config) (l : WebhooksListener)
    (events : List String) (b : Backend)
    (h : l.clusterURL lib.ListWebhooks = cfg.base ++ lib.ListWebhooks) :
    l.createOrUpdateWebhook (runtime cfg) events b =
      (Outcome.returned none,
        { subs := (handle cfg (webhookRequest l { Entities := b.subs } events) b.subs).2
          requests := b.requests ++
            [listRequest l, webhookRequest l { Entities := b.subs } events] }) := by
  rw [createOrUpdateWebhook_of_listing (runtime cfg) l events b
    { subs := b.subs, requests := b.requests ++ [listRequest l] }
    { StatusCode := 200, Body := Body.webhooks { Entities := b.subs } }
    { Entities := b.subs }]
  · rw [submit_runtime]
    simp
  · rw [DoRequest_runtime, handle_listRequest cfg l b.subs h]
  · rfl

/-- A reconciliation by a listener of another cluster leaves the
subscriptions as they are. -/
theorem createOrUpdateWebhook_runtime_of_ne (cfg : Config) (l : WebhooksListener)
    (events : List String) (b : Backend)
    (h : l.clusterURL lib.ListWebhooks ≠ cfg.base ++ lib.ListWebhooks) :
    (l.createOrUpdateWebhook (runtime cfg) events b).2.subs = b.subs := by
  have h1 := handle_listRequest_of_ne cfg l b.subs h
  unfold WebhooksListener.createOrUpdateWebhook
  rw [DoRequest_runtime]
  simp only [Runtime.ReadAll]
  rw [h1.2]
  simp [runtime, h1.1]

theorem wellFormed_create (cfg : Config) (l : WebhooksListener) (events : List String)
    (specVersion : Int) (subs : List schema.Webhook) (h : WellFormed subs)
    (hnone : ∀ w ∈ subs, w.Spec.Resources.PostURL ≠ l.postUrl) :
    WellFormed
      (subs ++ [stored (cfg.uuids.next subs) (webhookCreationSpec l events specVersion)]) := by
  obtain ⟨h1, h2, h3⟩ := h
  refine ⟨?_, ?_, ?_⟩
  · intro w hw
    rcases List.mem_append.1 hw with hw1 | hw1
    · exact h1 w hw1
    · rw [List.mem_singleton] at hw1
      subst hw1
      exact cfg.uuids.next_ne_empty subs
  · rw [List.map_append, List.nodup_append]
    refine ⟨h2, by simp, ?_⟩
    intro a ha hb
    simp only [List.map_cons, List.map_nil, List.mem_singleton] at hb
    obtain ⟨w, hw, rfl⟩ := List.mem_map.1 ha
    exact cfg.uuids.next_fresh subs w hw hb
  · rw [List.map_append, List.nodup_append]
    refine ⟨h3, by simp, ?_⟩
    intro a ha hb
    simp only [List.map_cons, List.map_nil, List.mem_singleton] at hb
    obtain ⟨w, hw, rfl⟩ := List.mem_map.1 ha
    exact hnone w hw hb

theorem wellFormed_update (l : WebhooksListener) (events : List String)
    (specVersion : Int) (subs : List schema.Webhook) (w0 : schema.Webhook)
    (h : WellFormed subs) (hmem : w0 ∈ subs)
    (hurl : w0.Spec.Resources.PostURL = l.postUrl) :
    WellFormed (subs.map (fun w =>
        if w.Metadata.UUID = w0.Metadata.UUID then
          stored w.Metadata.UUID (webhookCreationSpec l events specVersion)
        else w)) := by
  obtain ⟨h1, h2, h3⟩ := h
  have huuid : (subs.map (fun w =>
        if w.Metadata.UUID = w0.Metadata.UUID then
          stored w.Metadata.UUID (webhookCreationSpec l events specVersion)
        else w)).map (fun w => w.Metadata.UUID) = subs.map (fun w => w.Metadata.UUID) := by
    rw [List.map_map]
    apply List.map_congr_left
    intro w _
    by_cases hw : w.Metadata.UUID = w0.Metadata.UUID
    · simp [hw, stored]
    · simp [hw]
  have hpost : (subs.map (fun w =>
        if w.Metadata.UUID = w0.Metadata.UUID then
          stored w.Metadata.UUID (webhookCreationSpec l events specVersion)
        else w)).map (fun w => w.Spec.Resources.PostURL) =
      subs.map (fun w => w.Spec.Resources.PostURL) := by
    rw [List.map_map]
    apply List.map_congr_left
    intro w hw
    by_cases hwu : w.Metadata.UUID = w0.Metadata.UUID
    · have hww : w = w0 := List.inj_on_of_nodup_map h2 hw hmem hwu
      simp [hwu, stored, webhookCreationSpec, hww, hurl]
    · simp [hwu]
  refine ⟨?_, ?_, ?_⟩
  · intro w hw
    have hmemu : w.Metadata.UUID ∈ subs.map (fun w => w.Metadata.UUID) := by
      rw [← huuid]
      exact List.mem_map_of_mem (fun w => w.Metadata.UUID) hw
    obtain ⟨w1, hw1, he⟩ := List.mem_map.1 hmemu
    rw [← he]
    exact h1 w1 hw1
  · rw [huuid]; exact h2
  · rw [hpost]; exact h3

/-- One reconciliation keeps the subscriptions well formed. -/
theorem wellFormed_reconcile (cfg : Config) (b : Backend)
    (run : WebhooksListener × List String) (h : WellFormed b.subs) :
    WellFormed (reconcile cfg b run).subs := by
  obtain ⟨l, events⟩ := run
  unfold reconcile
  by_cases hl : l.clusterURL lib.ListWebhooks = cfg.base ++ lib.ListWebhooks
  · rw [createOrUpdateWebhook_runtime cfg l events b hl]
    simp only
    by_cases hu : (webhookToUpdate l.postUrl b.subs).Metadata.UUID = ""
    · rw [webhookRequest_create l { Entities := b.subs } events hu, handle_create cfg l _ _ _ hl]
      exact wellFormed_create cfg l events 0 b.subs h
        (no_match_of_uuid_empty l.postUrl b.subs h.1 hu)
    · rw [webhookRequest_update l { Entities := b.subs } events hu,
        handle_update cfg l _ _ _ _ hl]
      have hm := webhookToUpdate_mem l.postUrl b.subs hu
      exact wellFormed_update l _ _ b.subs _ h hm.1 hm.2
  · rw [createOrUpdateWebhook_runtime_of_ne cfg l events b hl]
    exact h

theorem wellFormed_foldl (cfg : Config) (runs : List (WebhooksListener × List String))
    (b : Backend) (h : WellFormed b.subs) :
    WellFormed (runs.foldl (reconcile cfg) b).subs := by
  induction runs generalizing b with
  | nil => exact h
  | cons run rest ih => exact ih (reconcile cfg b run) (wellFormed_reconcile cfg b run h)

theorem filter_length_le_one (subs : List schema.Webhook) (url : String)
    (h : (subs.map (fun w => w.Spec.Resources.PostURL)).Nodup) :
    (subs.filter (fun w => decide (w.Spec.Resources.PostURL = url))).length ≤ 1 := by
  induction subs with
  | nil => simp
  | cons x xs ih =>
    rw [List.map_cons, List.nodup_cons] at h
    by_cases hx : x.Spec.Resources.PostURL = url
    · have hnil : xs.filter (fun w => decide (w.Spec.Resources.PostURL = url)) = [] := by
        rw [List.filter_eq_nil_iff]
        intro w hw hd
        have hwu : w.Spec.Resources.PostURL = url := by simpa using hd
        apply h.1
        rw [hx, ← hwu]
        exact List.mem_map_of_mem (fun w => w.Spec.Resources.PostURL) hw
      simp [List.filter_cons, hx, hnil]
    · simp only [List.filter_cons, hx, decide_False]
      exact ih h.2

/-- C3. Idempotent re-registration against the model backend: a listener of
the cluster for which the backend holds no subscription yet calls
`createOrUpdateWebhook` twice with the same events. Both calls return no
error; the first sends the listing request and a create, the second the listing
request and an update of the subscription the first call created, and no
create; the backend then holds exactly one subscription with the callback URL
of the listener, and its filter holds each of the events once. -/
theorem reregistration_idempotent (cfg : Config) (l : WebhooksListener)
    (events : List String) (b0 : Backend)
    (hip : l.clusterIp = cfg.ip) (hport : l.clusterPort = cfg.port)
    (hnone : ∀ w ∈ b0.subs, w.Spec.Resources.PostURL ≠ l.postUrl) :
    ∃ b1 b2 : Backend, ∃ w : schema.Webhook,
      l.createOrUpdateWebhook (runtime cfg) events b0 = (Outcome.returned none, b1) ∧
      l.createOrUpdateWebhook (runtime cfg) events b1 = (Outcome.returned none, b2) ∧
      b1.requests = b0.requests ++
        [listRequest l, prepare l (l.clusterURL lib.CreateWebhook) "POST" events 0] ∧
      b2.requests = b1.requests ++
        [listRequest l,
          prepare l (l.clusterURL lib.UpdateWebhook ++ cfg.uuids.next b0.subs) "PUT"
            (lib.RemoveDuplicates events) 0] ∧
      (b1.subs.filter (fun x => decide (x.Spec.Resources.PostURL = l.postUrl))).map
        (fun x => x.Metadata.UUID) = [cfg.uuids.next b0.subs] ∧
      b2.subs.filter (fun x => decide (x.Spec.Resources.PostURL = l.postUrl)) = [w] ∧
      w.Metadata.UUID = cfg.uuids.next b0.subs ∧
      w.Metadata.UUID ≠ "" ∧
      w.Spec.Resources.EventsFilterList = lib.RemoveDuplicates events ∧
      w.Spec.Resources.EventsFilterList.Nodup ∧
      (∀ e, e ∈ w.Spec.Resources.EventsFilterList ↔ e ∈ events) := by
  have hl : l.clusterURL lib.ListWebhooks = cfg.base ++ lib.ListWebhooks :=
    clusterURL_eq_base cfg l _ hip hport
  have hfilter0 : b0.subs.filter (fun x => decide (x.Spec.Resources.PostURL = l.postUrl)) = [] := by
    rw [List.filter_eq_nil_iff]
    intro w hw hd
    exact hnone w hw (by simpa using hd)
  -- the first call
  have hz := webhookToUpdate_of_no_match l.postUrl b0.subs hnone
  have hreq1 : webhookRequest l { Entities := b0.subs } events =
      prepare l (l.clusterURL lib.CreateWebhook) "POST" events 0 :=
    webhookRequest_create l { Entities := b0.subs } events (by rw [hz])
  have hcall1 := createOrUpdateWebhook_runtime cfg l events b0 hl
  rw [hreq1, handle_create cfg l _ _ _ hl] at hcall1
  -- the second call
  have hfound : webhookToUpdate l.postUrl
      (b0.subs ++ [stored (cfg.uuids.next b0.subs) (webhookCreationSpec l events 0)]) =
      stored (cfg.uuids.next b0.subs) (webhookCreationSpec l events 0) := by
    rw [webhookToUpdate_append_of_no_match _ _ _ hnone]
    simp [webhookToUpdate, stored, webhookCreationSpec]
  have hne : (webhookToUpdate l.postUrl
      (b0.subs ++ [stored (cfg.uuids.next b0.subs)
        (webhookCreationSpec l events 0)])).Metadata.UUID ≠ "" := by
    rw [hfound]
    exact cfg.uuids.next_ne_empty b0.subs
  have hdup : lib.RemoveDuplicates (events ++ events) = lib.RemoveDuplicates events := by
    rw [lib.RemoveDuplicates_eq_firstOccurrences, lib.RemoveDuplicates_eq_firstOccurrences,
      lib.firstOccurrences_append_of_subset events events (fun e he => he)]
  have hreq2 : webhookRequest l
      { Entities := b0.subs ++ [stored (cfg.uuids.next b0.subs)
          (webhookCreationSpec l events 0)] } events =
      prepare l (l.clusterURL lib.UpdateWebhook ++ cfg.uuids.next b0.subs) "PUT"
        (lib.RemoveDuplicates events) 0 := by
    rw [webhookRequest_update l _ events hne]
    simp only [hfound]
    simp only [stored, webhookCreationSpec, hdup]
  have hcall2 := createOrUpdateWebhook_runtime cfg l events
    { subs := b0.subs ++ [stored (cfg.uuids.next b0.subs) (webhookCreationSpec l events 0)]
      requests := b0.requests ++
        [listRequest l, prepare l (l.clusterURL lib.CreateWebhook) "POST" events 0] } hl
  simp only [hreq2] at hcall2
  rw [handle_update cfg l _ _ _ _ hl] at hcall2
  have hmap : (b0.subs ++ [stored (cfg.uuids.next b0.subs)
        (webhookCreationSpec l events 0)]).map (fun w =>
        if w.Metadata.UUID = cfg.uuids.next b0.subs then
          stored w.Metadata.UUID (webhookCreationSpec l (lib.RemoveDuplicates events) 0)
        else w) =
      b0.subs ++ [stored (cfg.uuids.next b0.subs)
        (webhookCreationSpec l (lib.RemoveDuplicates events) 0)] := by
    rw [List.map_append]
    congr 1
    · conv_rhs => rw [← List.map_id b0.subs]
      apply List.map_congr_left
      intro w hw
      simp [cfg.uuids.next_fresh b0.subs w hw]
    · simp [stored]
  rw [hmap] at hcall2
  refine ⟨_, _, stored (cfg.uuids.next b0.subs)
    (webhookCreationSpec l (lib.RemoveDuplicates events) 0), hcall1, hcall2, rfl, rfl, ?_, ?_,
    rfl, cfg.uuids.next_ne_empty b0.subs, rfl, lib.nodup_RemoveDuplicates events,
    lib.mem_RemoveDuplicates events⟩
  · simp [List.filter_append, hfilter0, stored, webhookCreationSpec, List.filter_cons]
  · simp [List.filter_append, hfilter0, stored, webhookCreationSpec, List.filter_cons]

/-- Witness of C3: the listener of the sample cluster registers `[A, B]` twice
on the empty backend, which then holds the one subscription `u` with the filter
`[A, B]`. -/
theorem reregistration_idempotent_witness :
    Sample.listener.clusterIp = Sample.backend.ip ∧
    Sample.listener.clusterPort = Sample.backend.port ∧
    (∀ w ∈ ({} : Backend).subs, w.Spec.Resources.PostURL ≠ Sample.listener.postUrl) ∧
    (∃ b1 b2 : Backend, ∃ w : schema.Webhook,
      Sample.listener.createOrUpdateWebhook (runtime Sample.backend) ["A", "B"] {} =
        (Outcome.returned none, b1) ∧
      Sample.listener.createOrUpdateWebhook (runtime Sample.backend) ["A", "B"] b1 =
        (Outcome.returned none, b2) ∧
      b2.subs.filter
        (fun x => decide (x.Spec.Resources.PostURL = Sample.listener.postUrl)) = [w] ∧
      w.Spec.Resources.EventsFilterList = lib.RemoveDuplicates ["A", "B"]) ∧
    ([(Sample.listener, ["A", "B"]), (Sample.listener, ["A", "B"])].foldl
        (reconcile Sample.backend) {}).subs =
      [{ Status := { State := "COMPLETE" }
         Spec := { Name := "Nutanix_Listener_Webhook_10.0.0.5"
                   Resources := { PostURL := "http://10.0.0.5:8080/listener/callback"
                                  EventsFilterList := ["A", "B"] } }
         ApiVersion := "3.0"
         Metadata := { Kind := "webhook", UUID := "u", SpecVersion := 0 } }] := by
  have hn : ∀ w ∈ ({} : Backend).subs,
      w.Spec.Resources.PostURL ≠ Sample.listener.postUrl := by
    intro w hw; cases hw
  obtain ⟨b1, b2, w, h1, h2, _, _, _, h6, _, _, h9, _, _⟩ :=
    reregistration_idempotent Sample.backend Sample.listener ["A", "B"] {} rfl rfl hn
  exact ⟨rfl, rfl, hn, ⟨b1, b2, w, h1, h2, h6, h9⟩, by decide⟩

/-- C9 (counterexample). Two listeners on the address 10.0.0.5, one on port
8080 and one on port 9090, reconcile one after the other on the empty backend;
both calls return no error, and the backend holds two subscriptions with the
name `Nutanix_Listener_Webhook_10.0.0.5`. -/
theorem same_name_two_subscriptions :
    Sample.listener.webhookName = "Nutanix_Listener_Webhook_10.0.0.5" ∧
    Sample.listener9090.webhookName = "Nutanix_Listener_Webhook_10.0.0.5" ∧
    (Sample.listener.createOrUpdateWebhook (runtime Sample.backend) ["VM.ON"] {}).1 =
      Outcome.returned none ∧
    (Sample.listener9090.createOrUpdateWebhook (runtime Sample.backend) ["VM.ON"]
      (Sample.listener.createOrUpdateWebhook (runtime Sample.backend) ["VM.ON"] {}).2).1 =
      Outcome.returned none ∧
    (([(Sample.listener, ["VM.ON"]), (Sample.listener9090, ["VM.ON"])].foldl
        (reconcile Sample.backend) {}).subs.filter
      (fun w => decide (w.Spec.Name = "Nutanix_Listener_Webhook_10.0.0.5"))).length = 2 := by
  decide

/-- C9 (amended). Against the model backend, started with well-formed
subscriptions (none at all, for instance), after any sequence of
reconciliations by any listeners the subscriptions are well formed, and the
backend holds at most one subscription per callback URL. -/
theorem one_subscription_per_callback_url (cfg : Config)
    (runs : List (WebhooksListener × List String)) (b0 : Backend)
    (h : WellFormed b0.subs) :
    WellFormed (runs.foldl (reconcile cfg) b0).subs ∧
    ∀ url : String,
      ((runs.foldl (reconcile cfg) b0).subs.filter
        (fun w => decide (w.Spec.Resources.PostURL = url))).length ≤ 1 := by
  have hw := wellFormed_foldl cfg runs b0 h
  exact ⟨hw, fun url => filter_length_le_one _ url hw.2.2⟩

/-- Witness of C9 (amended): the two listeners of the counterexample, on the
empty backend. -/
theorem one_subscription_per_callback_url_witness :
    WellFormed ({} : Backend).subs ∧
    ∀ url : String,
      (([(Sample.listener, ["VM.ON"]), (Sample.listener9090, ["VM.ON"]),
          (Sample.listener, ["VM.OFF"])].foldl
        (reconcile Sample.backend) {}).subs.filter
        (fun w => decide (w.Spec.Resources.PostURL = url))).length ≤ 1 :=
  ⟨⟨(fun _ hw => nomatch hw), List.nodup_nil, List.nodup_nil⟩,
    (one_subscription_per_callback_url Sample.backend
      [(Sample.listener, ["VM.ON"]), (Sample.listener9090, ["VM.ON"]),
        (Sample.listener, ["VM.OFF"])] {}
      ⟨(fun _ hw => nomatch hw), List.nodup_nil, List.nodup_nil⟩).2⟩

end Model

/-! ## `DoRequest` -/

namespace lib

/-- A response comes back from `DoRequest` only for a request that
`http.NewRequest` accepted. -/
theorem NewRequest_of_DoRequest {σ β : Type} (rt : Runtime σ β) (request : schema.Request)
    (s s1 : σ) (r : Response β) (e : Option Error)
    (h : DoRequest rt request s = (Outcome.returned (some r, e), s1)) :
    rt.NewRequest request = none := by
  cases hn : rt.NewRequest request with
  | none => rfl
  | some err => simp [DoRequest, hn] at h

/-- A response handed to `DoRequest` by `httpClient.Do` comes back as it is,
with the error of `httpClient.Do`. -/
theorem DoRequest_of_response {σ β : Type} (rt : Runtime σ β) (request : schema.Request)
    (s s1 : σ) (resp : Response β) (err : Option Error)
    (hnew : rt.NewRequest request = none)
    (hdo : rt.Do request s = ((some resp, err), s1)) :
    DoRequest rt request s = (Outcome.returned (some resp, err), s1) := by
  simp only [DoRequest, hnew, hdo, Runtime.ReadAll]
  split_ifs <;> rfl

/-- With the log of requests, `DoRequest` does what it does without it, and the
log grows by the request when it is sent. -/
theorem DoRequest_recording {σ β : Type} (rt : Runtime σ β) (request : schema.Request)
    (s : σ) (log : List schema.Request) :
    DoRequest rt.recording request (s, log) =
      ((DoRequest rt request s).1, ((DoRequest rt request s).2, log ++ rt.sent request)) := by
  unfold DoRequest Runtime.sent
  cases hn : rt.NewRequest request with
  | some err => simp [Runtime.recording, hn]
  | none =>
    simp only [Runtime.recording, hn]
    rcases hd : rt.Do request s with ⟨⟨resp, err⟩, s1⟩
    cases resp with
    | none => simp
    | some r =>
      simp only [Runtime.ReadAll, Option.isSome_none, Bool.false_eq_true, if_false]
      split_ifs <;> simp

/-- C11. For every HTTP response of status 200 or 202 that `httpClient.Do`
delivers without error, `DoRequest` returns that response together with a nil
error. -/
theorem DoRequest_success {σ β : Type} (rt : Runtime σ β) (request : schema.Request)
    (s s1 : σ) (resp : Response β)
    (hnew : rt.NewRequest request = none)
    (hdo : rt.Do request s = ((some resp, none), s1))
    (hstatus : resp.StatusCode = 200 ∨ resp.StatusCode = 202) :
    DoRequest rt request s = (Outcome.returned (some resp, none), s1) := by
  rcases hstatus with h | h
  · simp [DoRequest, hnew, hdo, h]
  · simp [DoRequest, hnew, hdo, h]

/-- Witness of C11: an answer of status 202. -/
theorem DoRequest_success_witness :
    Sample.scripted.NewRequest
        (WebhooksListener.createOrUpdateWebhook.listRequest Sample.listener) = none ∧
    Sample.scripted.Do (WebhooksListener.createOrUpdateWebhook.listRequest Sample.listener)
        [Sample.answer 202 "webhook-pending"] =
      ((some { StatusCode := 202, Body := "webhook-pending" }, none), []) ∧
    DoRequest Sample.scripted
        (WebhooksListener.createOrUpdateWebhook.listRequest Sample.listener)
        [Sample.answer 202 "webhook-pending"] =
      (Outcome.returned (some { StatusCode := 202, Body := "webhook-pending" }, none), []) :=
  ⟨rfl, rfl, DoRequest_success Sample.scripted _ _ _ _ rfl rfl (Or.inr rfl)⟩

/-- C12 (counterexample). The answer 404 with the body `not found` comes back
from `DoRequest` with a nil error. -/
theorem DoRequest_not_found_nil_error :
    DoRequest Sample.scripted
        (WebhooksListener.createOrUpdateWebhook.listRequest Sample.listener)
        [Sample.answer 404 "not found"] =
      (Outcome.returned (some { StatusCode := 404, Body := "not found" }, none), []) := by
  decide

/-- C12 (amended). For every HTTP response whose status is neither 200 nor
202, `DoRequest` returns the response, which carries the status code and the
body (read for the log and put back), together with the error of
`httpClient.Do`, which is nil when the call itself went through. -/
theorem DoRequest_failure_status {σ β : Type} (rt : Runtime σ β) (request : schema.Request)
    (s s1 : σ) (resp : Response β) (err : Option Error)
    (hnew : rt.NewRequest request = none)
    (hdo : rt.Do request s = ((some resp, err), s1))
    (h200 : resp.StatusCode ≠ 200) (h202 : resp.StatusCode ≠ 202) :
    ∃ r : Response β,
      DoRequest rt request s = (Outcome.returned (some r, err), s1) ∧
      r.StatusCode = resp.StatusCode ∧ r.Body = resp.Body := by
  refine ⟨{ resp with Body := (rt.ReadAll resp.Body).1 }, ?_, rfl, rfl⟩
  simp [DoRequest, hnew, hdo, h200, h202]

/-- Witness of C12 (amended): the answer 500. -/
theorem DoRequest_failure_status_witness :
    ∃ r : Response String,
      DoRequest Sample.scripted
          (WebhooksListener.createOrUpdateWebhook.listRequest Sample.listener)
          [Sample.answer 500 "error-object"] = (Outcome.returned (some r, none), []) ∧
      r.StatusCode = 500 ∧ r.Body = "error-object" :=
  DoRequest_failure_status Sample.scripted _ [Sample.answer 500 "error-object"] []
    { StatusCode := 500, Body := "error-object" } none rfl rfl (by decide) (by decide)

/-- C13. Every response that `DoRequest` returns is the response that
`httpClient.Do` delivered, with its status code and with its body unread: what
the caller reads from it is what was to be read from the body delivered. On the
failure branch the body has been read, which leaves `eof` behind, and put
back. -/
theorem DoRequest_body_intact {σ β : Type} (rt : Runtime σ β) (request : schema.Request)
    (s s1 : σ) (r : Response β) (e : Option Error)
    (h : DoRequest rt request s = (Outcome.returned (some r, e), s1)) :
    ∃ resp : Response β,
      rt.Do request s = ((some resp, e), s1) ∧
      r.StatusCode = resp.StatusCode ∧
      r.Body = resp.Body ∧
      (rt.ReadAll r.Body).1 = (rt.ReadAll resp.Body).1 ∧
      (rt.ReadAll resp.Body).2 = rt.eof := by
  have hnew := NewRequest_of_DoRequest rt request s s1 r e h
  rcases hd : rt.Do request s with ⟨⟨resp, err⟩, s2⟩
  cases resp with
  | none => simp [DoRequest, hnew, hd] at h
  | some resp =>
    rw [DoRequest_of_response rt request s s2 resp err hnew hd] at h
    simp only [Prod.mk.injEq, Outcome.returned.injEq, Option.some.injEq] at h
    obtain ⟨⟨hr, he⟩, hs⟩ := h
    subst hr; subst he; subst hs
    exact ⟨resp, rfl, rfl, rfl, rfl, rfl⟩

/-- Witness of C13: the body of the answer 404 comes back whole. -/
theorem DoRequest_body_intact_witness :
    ∃ resp : Response String,
      Sample.scripted.Do
          (WebhooksListener.createOrUpdateWebhook.listRequest Sample.listener)
          [Sample.answer 404 "not found"] = ((some resp, none), []) ∧
      (404 : Int) = resp.StatusCode ∧
      "not found" = resp.Body ∧
      (Sample.scripted.ReadAll "not found").1 = (Sample.scripted.ReadAll resp.Body).1 ∧
      (Sample.scripted.ReadAll resp.Body).2 = Sample.scripted.eof :=
  DoRequest_body_intact Sample.scripted _ [Sample.answer 404 "not found"] []
    { StatusCode := 404, Body := "not found" } none (by decide)

end lib

namespace WebhooksListener
open createOrUpdateWebhook

/-- With the log of requests, `submit` does what it does without it; it sends
the request given and, exactly when the answer is pending, the get-by-ID
request for the identifier in the answer. -/
theorem createOrUpdateWebhook.submit_recording {σ β : Type} (rt : Runtime σ β)
    (l : WebhooksListener) (request : schema.Request) (s : σ) (log : List schema.Request) :
    submit rt.recording l request (s, log) =
      ((submit rt l request s).1, ((submit rt l request s).2,
        log ++ (rt.sent request ++
          match pendingUUID rt request s with
          | none => []
          | some uuid => rt.sent (getRequest l uuid)))) := by
  unfold submit pendingUUID
  rw [lib.DoRequest_recording]
  rcases hd : lib.DoRequest rt request s with ⟨o, s1⟩
  cases o with
  | panicked => simp
  | returned a =>
    obtain ⟨resp, err⟩ := a
    cases err with
    | some e => simp
    | none =>
      cases resp with
      | none => simp
      | some response =>
        have hsent : rt.sent request = [request] := by
          simp [Runtime.sent, lib.NewRequest_of_DoRequest rt request s s1 response none hd]
        simp only [hsent, pendingStatusCode, pendingStatus]
        by_cases h202 : response.StatusCode = 202
        · simp only [h202, if_true]
          have hu : rt.recording.UnmarshalWebhook (rt.recording.ReadAll response.Body).1 =
              rt.UnmarshalWebhook response.Body := rfl
          have hu1 : rt.UnmarshalWebhook (rt.ReadAll response.Body).1 =
              rt.UnmarshalWebhook response.Body := rfl
          rw [hu, hu1]
          cases hw : rt.UnmarshalWebhook response.Body with
          | error e => simp
          | ok webhook =>
            simp only
            by_cases hp : webhook.Status.State = "PENDING"
            · simp only [hp, if_true]
              rw [lib.DoRequest_recording]
              rcases hd2 : lib.DoRequest rt (getRequest l webhook.Metadata.UUID) s1 with ⟨o2, s2⟩
              cases o2 with
              | panicked => simp
              | returned a2 =>
                obtain ⟨resp2, err2⟩ := a2
                cases err2 with
                | some e => simp
                | none =>
                  cases resp2 with
                  | none => simp
                  | some response2 =>
                    simp only
                    have hv : rt.recording.UnmarshalWebhook
                        (rt.recording.ReadAll response2.Body).1 =
                        rt.UnmarshalWebhook (rt.ReadAll response2.Body).1 := rfl
                    rw [hv]
                    cases rt.UnmarshalWebhook (rt.ReadAll response2.Body).1 <;> simp
            · simp [hp]
        · simp [h202]

/-- With the log of requests, `createOrUpdateWebhook` does what it does without
it, and the requests it sends are those of `expectedRequests`. -/
theorem createOrUpdateWebhook_recording {σ β : Type} (rt : Runtime σ β)
    (l : WebhooksListener) (events : List String) (s : σ) (log : List schema.Request) :
    l.createOrUpdateWebhook rt.recording events (s, log) =
      ((l.createOrUpdateWebhook rt events s).1, ((l.createOrUpdateWebhook rt events s).2,
        log ++ expectedRequests rt l events s)) := by
  unfold WebhooksListener.createOrUpdateWebhook expectedRequests decodedListing
  rw [lib.DoRequest_recording]
  rcases hd : lib.DoRequest rt (listRequest l) s with ⟨o, s1⟩
  cases o with
  | panicked => simp
  | returned a =>
    obtain ⟨resp, err⟩ := a
    cases err with
    | some e => simp
    | none =>
      cases resp with
      | none => simp
      | some response =>
        have hsent : rt.sent (listRequest l) = [listRequest l] := by
          simp [Runtime.sent, lib.NewRequest_of_DoRequest rt _ s s1 response none hd]
        have hu : rt.recording.UnmarshalCurrentWebhooks (rt.recording.ReadAll response.Body).1 =
            rt.UnmarshalCurrentWebhooks response.Body := rfl
        have hu1 : rt.UnmarshalCurrentWebhooks (rt.ReadAll response.Body).1 =
            rt.UnmarshalCurrentWebhooks response.Body := rfl
        simp only [hsent]
        rw [hu, hu1]
        cases hc : rt.UnmarshalCurrentWebhooks response.Body with
        | error e => simp
        | ok c =>
          simp only
          rw [submit_recording]
          simp

theorem createOrUpdateWebhook.length_sent_le {σ β : Type} (rt : Runtime σ β)
    (request : schema.Request) : (rt.sent request).length ≤ 1 := by
  unfold Runtime.sent
  split_ifs <;> simp

theorem createOrUpdateWebhook.sent_of_DoRequest {σ β : Type} (rt : Runtime σ β)
    (request : schema.Request) (s s1 : σ) (r : Response β) (e : Option Error)
    (h : lib.DoRequest rt request s = (Outcome.returned (some r, e), s1)) :
    rt.sent request = [request] := by
  simp [Runtime.sent, lib.NewRequest_of_DoRequest rt request s s1 r e h]

/-- C14. One run of `createOrUpdateWebhook` sends at most three requests, each
once: `DoRequest` hands its request to `httpClient.Do` once (or not at all,
when `http.NewRequest` rejects it), and the requests of the run are, in order,
the list request, then the create or update request built from the listing
decoded, then the get-by-ID request; the get-by-ID request is sent exactly when
the answer to the create or update request is pending (status 202, state
`PENDING`), for the identifier in the body of that answer. -/
theorem requests_of_run {σ β : Type} (rt : Runtime σ β) (l : WebhooksListener)
    (events : List String) (s : σ) (log : List schema.Request) :
    (∀ request : schema.Request,
      (lib.DoRequest rt.recording request (s, log)).2.2 = log ++ rt.sent request ∧
      (rt.sent request).length ≤ 1) ∧
    (l.createOrUpdateWebhook rt.recording events (s, log)).2.2 =
      log ++ expectedRequests rt l events s ∧
    (expectedRequests rt l events s).length ≤ 3 ∧
    (decodedListing rt l s = none →
      expectedRequests rt l events s = rt.sent (listRequest l)) ∧
    (∀ c s1, decodedListing rt l s = some (c, s1) →
      (pendingUUID rt (webhookRequest l c events) s1 = none →
        expectedRequests rt l events s =
          [listRequest l] ++ rt.sent (webhookRequest l c events)) ∧
      (∀ uuid, pendingUUID rt (webhookRequest l c events) s1 = some uuid →
        expectedRequests rt l events s =
          [listRequest l, webhookRequest l c events] ++ rt.sent (getRequest l uuid))) := by
  refine ⟨?_, ?_, ?_, ?_, ?_⟩
  · intro request
    rw [lib.DoRequest_recording]
    exact ⟨rfl, length_sent_le rt request⟩
  · rw [createOrUpdateWebhook_recording]
  · unfold expectedRequests
    have h1 := length_sent_le rt (listRequest l)
    cases hl : decodedListing rt l s with
    | none => simp only [List.length_append, List.length_nil]; omega
    | some p =>
      obtain ⟨c, s1⟩ := p
      have h2 := length_sent_le rt (webhookRequest l c events)
      cases hp : pendingUUID rt (webhookRequest l c events) s1 with
      | none => simp only [hp, List.length_append, List.length_nil]; omega
      | some uuid =>
        have h3 := length_sent_le rt (getRequest l uuid)
        simp only [hp, List.length_append]; omega
  · intro hl
    simp [expectedRequests, hl]
  · intro c s1 hl
    have hlist : rt.sent (listRequest l) = [listRequest l] := by
      unfold decodedListing at hl
      rcases hd : lib.DoRequest rt (listRequest l) s with ⟨o, s2⟩
      rw [hd] at hl
      cases o with
      | panicked => simp at hl
      | returned a =>
        obtain ⟨resp, err⟩ := a
        cases resp with
        | none => cases err <;> simp at hl
        | some response => exact sent_of_DoRequest rt _ s s2 response err hd
    constructor
    · intro hp
      simp [expectedRequests, hl, hp, hlist]
    · intro uuid hp
      have hcu : rt.sent (webhookRequest l c events) = [webhookRequest l c events] := by
        unfold pendingUUID at hp
        rcases hd : lib.DoRequest rt (webhookRequest l c events) s1 with ⟨o, s2⟩
        rw [hd] at hp
        cases o with
        | panicked => simp at hp
        | returned a =>
          obtain ⟨resp, err⟩ := a
          cases resp with
          | none => cases err <;> simp at hp
          | some response => exact sent_of_DoRequest rt _ s1 s2 response err hd
      simp [expectedRequests, hl, hp, hlist, hcu]

/-- Witness of C14: the create is answered with 202 and `PENDING`, and the run
sends the list request, the create request and one get-by-ID request for
`u-1`. -/
theorem requests_of_run_witness :
    (Sample.listener.createOrUpdateWebhook Sample.scripted.recording ["VM.ON"]
      ([Sample.answer 200 "listing-empty", Sample.answer 202 "webhook-pending",
        Sample.answer 200 "webhook-pending"], [])).2.2 =
      [] ++ expectedRequests Sample.scripted Sample.listener ["VM.ON"]
        [Sample.answer 200 "listing-empty", Sample.answer 202 "webhook-pending",
          Sample.answer 200 "webhook-pending"] ∧
    (expectedRequests Sample.scripted Sample.listener ["VM.ON"]
        [Sample.answer 200 "listing-empty", Sample.answer 202 "webhook-pending",
          Sample.answer 200 "webhook-pending"]).map (fun r => (r.Method, r.URL)) =
      [("POST", "https://10.0.0.1:9440/api/nutanix/v3/webhooks/list"),
        ("POST", "https://10.0.0.1:9440/api/nutanix/v3/webhooks"),
        ("GET", "https://10.0.0.1:9440/api/nutanix/v3/webhooks/u-1")] :=
  ⟨(requests_of_run Sample.scripted Sample.listener ["VM.ON"]
      [Sample.answer 200 "listing-empty", Sample.answer 202 "webhook-pending",
        Sample.answer 200 "webhook-pending"] []).2.1, by decide⟩

/-- C15. Remaining pending is not a failure: when the create or update call
returned a pending answer (status 202, state `PENDING`, no error) and the
get-by-ID call returns a response whose body decodes, whatever state it
reports, `createOrUpdateWebhook` returns a nil error. -/
theorem pending_confirmation_returns_nil {σ β : Type} (rt : Runtime σ β)
    (l : WebhooksListener) (events : List String) (s s1 s2 s3 : σ)
    (r0 r1 r2 : Response β) (c : schema.CurrentWebhooks) (w1 w2 : schema.Webhook)
    (hlist : lib.DoRequest rt (listRequest l) s = (Outcome.returned (some r0, none), s1))
    (hjson : rt.UnmarshalCurrentWebhooks r0.Body = Except.ok c)
    (hsubmit : lib.DoRequest rt (webhookRequest l c events) s1 =
      (Outcome.returned (some r1, none), s2))
    (h202 : r1.StatusCode = 202)
    (hw1 : rt.UnmarshalWebhook r1.Body = Except.ok w1)
    (hpending : w1.Status.State = "PENDING")
    (hget : lib.DoRequest rt (getRequest l w1.Metadata.UUID) s2 =
      (Outcome.returned (some r2, none), s3))
    (hw2 : rt.UnmarshalWebhook r2.Body = Except.ok w2) :
    l.createOrUpdateWebhook rt events s = (Outcome.returned none, s3) := by
  rw [createOrUpdateWebhook_of_listing rt l events s s1 r0 c hlist hjson]
  simp [submit, hsubmit, h202, pendingStatusCode, pendingStatus, Runtime.ReadAll, hw1,
    hpending, hget, hw2]

/-- Witness of C15: the get-by-ID answer still reports `PENDING`. -/
theorem pending_confirmation_returns_nil_witness :
    Sample.listener.createOrUpdateWebhook Sample.scripted ["VM.ON"]
      [Sample.answer 200 "listing-empty", Sample.answer 202 "webhook-pending",
        Sample.answer 200 "webhook-pending"] = (Outcome.returned none, []) :=
  pending_confirmation_returns_nil Sample.scripted Sample.listener ["VM.ON"]
    [Sample.answer 200 "listing-empty", Sample.answer 202 "webhook-pending",
      Sample.answer 200 "webhook-pending"]
    [Sample.answer 202 "webhook-pending", Sample.answer 200 "webhook-pending"]
    [Sample.answer 200 "webhook-pending"] []
    { StatusCode := 200, Body := "listing-empty" }
    { StatusCode := 202, Body := "webhook-pending" }
    { StatusCode := 200, Body := "webhook-pending" }
    {} { Status := { State := "PENDING" }, Metadata := { UUID := "u-1" } }
    { Status := { State := "PENDING" }, Metadata := { UUID := "u-1" } }
    (by decide) rfl (by decide) (by decide) rfl (by decide) (by decide) rfl

/-- C16 (counterexample). The create call succeeds with a pending answer; the
get-by-ID call fails (the redirects do not end, `httpClient.Do` gives the
last response and an error), and `createOrUpdateWebhook` returns that error.
With a get-by-ID answer whose body is not JSON it returns the error of the
decoding. -/
theorem failed_confirmation_returns_error :
    lib.DoRequest Sample.scripted
        (webhookRequest Sample.listener {} ["VM.ON"])
        [Sample.answer 202 "webhook-pending",
          (some { StatusCode := 302, Body := "" }, some "stopped after 10 redirects")] =
      (Outcome.returned (some { StatusCode := 202, Body := "webhook-pending" }, none),
        [(some { StatusCode := 302, Body := "" }, some "stopped after 10 redirects")]) ∧
    Sample.listener.createOrUpdateWebhook Sample.scripted ["VM.ON"]
      [Sample.answer 200 "listing-empty", Sample.answer 202 "webhook-pending",
        (some { StatusCode := 302, Body := "" }, some "stopped after 10 redirects")] =
      (Outcome.returned (some "stopped after 10 redirects"), []) ∧
    Sample.listener.createOrUpdateWebhook Sample.scripted ["VM.ON"]
      [Sample.answer 200 "listing-empty", Sample.answer 202 "webhook-pending",
        Sample.answer 200 "<html>"] =
      (Outcome.returned (some "invalid character"), []) := by
  decide

/-- C16 (amended). Once the create or update call has returned a response
without error, `createOrUpdateWebhook` returns a nil error when the answer is
not pending (its status is not 202, or its body decodes to a state other than
`PENDING`) and when the get-by-ID call returns a response without error whose
body decodes; when the get-by-ID call returns an error, it returns that error,
and when the body of an answer of status 202 does not decode, the error of the
decoding. -/
theorem after_successful_submit {σ β : Type} (rt : Runtime σ β)
    (l : WebhooksListener) (events : List String) (s s1 s2 : σ)
    (r0 r1 : Response β) (c : schema.CurrentWebhooks)
    (hlist : lib.DoRequest rt (listRequest l) s = (Outcome.returned (some r0, none), s1))
    (hjson : rt.UnmarshalCurrentWebhooks r0.Body = Except.ok c)
    (hsubmit : lib.DoRequest rt (webhookRequest l c events) s1 =
      (Outcome.returned (some r1, none), s2)) :
    (r1.StatusCode ≠ 202 →
      l.createOrUpdateWebhook rt events s = (Outcome.returned none, s2)) ∧
    (∀ w1, r1.StatusCode = 202 → rt.UnmarshalWebhook r1.Body = Except.ok w1 →
      w1.Status.State ≠ "PENDING" →
      l.createOrUpdateWebhook rt events s = (Outcome.returned none, s2)) ∧
    (∀ w1 r2 w2 s3, r1.StatusCode = 202 → rt.UnmarshalWebhook r1.Body = Except.ok w1 →
      w1.Status.State = "PENDING" →
      lib.DoRequest rt (getRequest l w1.Metadata.UUID) s2 =
        (Outcome.returned (some r2, none), s3) →
      rt.UnmarshalWebhook r2.Body = Except.ok w2 →
      l.createOrUpdateWebhook rt events s = (Outcome.returned none, s3)) ∧
    (∀ w1 r2 e s3, r1.StatusCode = 202 → rt.UnmarshalWebhook r1.Body = Except.ok w1 →
      w1.Status.State = "PENDING" →
      lib.DoRequest rt (getRequest l w1.Metadata.UUID) s2 =
        (Outcome.returned (r2, some e), s3) →
      l.createOrUpdateWebhook rt events s = (Outcome.returned (some e), s3)) ∧
    (∀ e, r1.StatusCode = 202 → rt.UnmarshalWebhook r1.Body = Except.error e →
      l.createOrUpdateWebhook rt events s = (Outcome.returned (some e), s2)) := by
  rw [createOrUpdateWebhook_of_listing rt l events s s1 r0 c hlist hjson]
  refine ⟨?_, ?_, ?_, ?_, ?_⟩
  rotate_right
  · intro e h202 hw1
    simp [submit, hsubmit, h202, pendingStatusCode, Runtime.ReadAll, hw1]
  · intro h
    simp [submit, hsubmit, h, pendingStatusCode]
  · intro w1 h202 hw1 hp
    simp [submit, hsubmit, h202, pendingStatusCode, pendingStatus, Runtime.ReadAll, hw1, hp]
  · intro w1 r2 w2 s3 h202 hw1 hp hget hw2
    simp [submit, hsubmit, h202, pendingStatusCode, pendingStatus, Runtime.ReadAll, hw1, hp,
      hget, hw2]
  · intro w1 r2 e s3 h202 hw1 hp hget
    simp [submit, hsubmit, h202, pendingStatusCode, pendingStatus, Runtime.ReadAll, hw1, hp,
      hget]

/-- Witness of C16 (amended): the create is answered with 200, and the run
returns a nil error. -/
theorem after_successful_submit_witness :
    Sample.listener.createOrUpdateWebhook Sample.scripted ["VM.ON"]
      [Sample.answer 200 "listing-empty", Sample.answer 200 "webhook-complete"] =
      (Outcome.returned none, []) :=
  (after_successful_submit Sample.scripted Sample.listener ["VM.ON"]
    [Sample.answer 200 "listing-empty", Sample.answer 200 "webhook-complete"]
    [Sample.answer 200 "webhook-complete"] []
    { StatusCode := 200, Body := "listing-empty" }
    { StatusCode := 200, Body := "webhook-complete" } {}
    (by decide) rfl (by decide)).1 (by decide)

/-- C17. A malformed listing aborts the reconciliation: when the list call
returns a response whose body does not decode to a listing,
`createOrUpdateWebhook` returns a non-nil error, and the list request is the
only request it sends. -/
theorem malformed_listing_aborts {σ β : Type} (rt : Runtime σ β)
    (l : WebhooksListener) (events : List String) (s s1 : σ)
    (r0 : Response β) (err : Option Error) (e : Error)
    (hlist : lib.DoRequest rt (listRequest l) s = (Outcome.returned (some r0, err), s1))
    (hbad : rt.UnmarshalCurrentWebhooks r0.Body = Except.error e) :
    (∃ e1 : Error, l.createOrUpdateWebhook rt events s = (Outcome.returned (some e1), s1)) ∧
    ∀ log : List schema.Request,
      (l.createOrUpdateWebhook rt.recording events (s, log)).2.2 = log ++ [listRequest l] := by
  constructor
  · cases err with
    | some e0 => exact ⟨e0, by simp [WebhooksListener.createOrUpdateWebhook, hlist]⟩
    | none =>
      exact ⟨e, by simp [WebhooksListener.createOrUpdateWebhook, hlist, Runtime.ReadAll, hbad]⟩
  · intro log
    rw [createOrUpdateWebhook_recording]
    have hsent := sent_of_DoRequest rt _ s s1 r0 err hlist
    have hnone : decodedListing rt l s = none := by
      unfold decodedListing
      rw [hlist]
      cases err <;> simp [hbad]
    simp [expectedRequests, hsent, hnone]

/-- Witness of C17: the listing is answered with a page that is not JSON. -/
theorem malformed_listing_aborts_witness :
    (∃ e1 : Error,
      Sample.listener.createOrUpdateWebhook Sample.scripted ["VM.ON"]
        [Sample.answer 200 "<html>", Sample.answer 200 "webhook-complete"] =
        (Outcome.returned (some e1), [Sample.answer 200 "webhook-complete"])) ∧
    ∀ log : List schema.Request,
      (Sample.listener.createOrUpdateWebhook Sample.scripted.recording ["VM.ON"]
        ([Sample.answer 200 "<html>", Sample.answer 200 "webhook-complete"], log)).2.2 =
        log ++ [listRequest Sample.listener] :=
  malformed_listing_aborts Sample.scripted Sample.listener ["VM.ON"]
    [Sample.answer 200 "<html>", Sample.answer 200 "webhook-complete"]
    [Sample.answer 200 "webhook-complete"]
    { StatusCode := 200, Body := "<html>" } none "invalid character" (by decide) rfl

/-- C18 (the code at the failing input). The list request and the create
request are both answered with the status 500 and a JSON object that reports
the error: the listing decodes to no entities, the create request is sent all
the same, and `createOrUpdateWebhook` returns a nil error. -/
theorem server_errors_return_nil :
    lib.DoRequest Sample.scripted (listRequest Sample.listener)
        [Sample.answer 500 "error-object", Sample.answer 500 "error-object"] =
      (Outcome.returned (some { StatusCode := 500, Body := "error-object" }, none),
        [Sample.answer 500 "error-object"]) ∧
    Sample.listener.createOrUpdateWebhook Sample.scripted.recording ["VM.ON"]
      ([Sample.answer 500 "error-object", Sample.answer 500 "error-object"], []) =
      (Outcome.returned none,
        ([], [listRequest Sample.listener,
          prepare Sample.listener "https://10.0.0.1:9440/api/nutanix/v3/webhooks" "POST"
            ["VM.ON"] 0])) := by
  decide

/-! ## `CheckPortAvailability` and `RegisterForEvents` -/

theorem RegisterForEvents_of_port_error {σ β τ κ : Type} (rt : Runtime σ β)
    (os : Sockets σ τ) (l : WebhooksListener) (events : List String) (consumer : κ)
    (s s1 : σ) (e : Error)
    (h : lib.CheckPortAvailability os l.ListenerPort s = (some e, s1)) :
    (l.RegisterForEvents rt os events consumer s).result = Outcome.returned (some e) ∧
    (l.RegisterForEvents rt os events consumer s).started = none ∧
    (l.RegisterForEvents rt os events consumer s).world = s1 := by
  simp [RegisterForEvents, h]

theorem CheckPortAvailability_withLog {σ τ : Type} (os : Sockets σ τ) (port : String)
    (s : σ) (log : List schema.Request) :
    lib.CheckPortAvailability os.withLog port (s, log) =
      ((lib.CheckPortAvailability os port s).1,
        ((lib.CheckPortAvailability os port s).2, log)) := by
  unfold lib.CheckPortAvailability
  simp only [Sockets.withLog]
  rcases hl : os.Listen "tcp" (":" ++ port) s with ⟨r, s1⟩
  cases r with
  | error e => rfl
  | ok socket =>
    simp only
    rcases hc : os.Close socket s1 with ⟨c, s2⟩
    cases c <;> rfl

/-- C19. Port preflight. `CheckPortAvailability` returns nil exactly when the
bind of the port succeeds and the test socket is closed without error, and
what it returns after a bind is what the `Close` of the test socket returns;
when the bind fails it returns the error of the bind; on the model of the ports
it returns an error for a port that is bound and nil, with the ports as they
were, for a port that is free. When it returns an error, `RegisterForEvents`
returns that error, sends no request and starts no listener. -/
theorem port_preflight {σ β τ κ : Type} (rt : Runtime σ β) (os : Sockets σ τ)
    (l : WebhooksListener) (events : List String) (consumer : κ) (port : String)
    (s : σ) (log : List schema.Request) :
    ((lib.CheckPortAvailability os port s).1 = none ↔
      ∃ socket s1, os.Listen "tcp" (":" ++ port) s = (Except.ok socket, s1) ∧
        (os.Close socket s1).1 = none) ∧
    (∀ socket s1, os.Listen "tcp" (":" ++ port) s = (Except.ok socket, s1) →
      lib.CheckPortAvailability os port s = os.Close socket s1) ∧
    (∀ e s1, os.Listen "tcp" (":" ++ port) s = (Except.error e, s1) →
      lib.CheckPortAvailability os port s = (some e, s1)) ∧
    (∀ bound : List String, (":" ++ port) ∈ bound →
      ∃ e, lib.CheckPortAvailability Model.sockets port bound = (some e, bound)) ∧
    (∀ bound : List String, (":" ++ port) ∉ bound →
      lib.CheckPortAvailability Model.sockets port bound = (none, bound)) ∧
    (∀ e s1, lib.CheckPortAvailability os l.ListenerPort s = (some e, s1) →
      (l.RegisterForEvents rt os events consumer s).result = Outcome.returned (some e) ∧
      (l.RegisterForEvents rt os events consumer s).started = none ∧
      (l.RegisterForEvents rt os events consumer s).world = s1 ∧
      (l.RegisterForEvents rt.recording os.withLog events consumer (s, log)).world.2 =
        log) := by
  have hclose : ∀ socket s1, os.Listen "tcp" (":" ++ port) s = (Except.ok socket, s1) →
      lib.CheckPortAvailability os port s = os.Close socket s1 := by
    intro socket s1 hl
    unfold lib.CheckPortAvailability
    rw [hl]
    simp only
    rcases hc : os.Close socket s1 with ⟨c, s2⟩
    cases c <;> rfl
  have hfail : ∀ e s1, os.Listen "tcp" (":" ++ port) s = (Except.error e, s1) →
      lib.CheckPortAvailability os port s = (some e, s1) := by
    intro e s1 hl
    unfold lib.CheckPortAvailability
    rw [hl]
  refine ⟨?_, hclose, hfail, ?_, ?_, ?_⟩
  · rcases hl : os.Listen "tcp" (":" ++ port) s with ⟨r, s1⟩
    cases r with
    | error e =>
      rw [hfail e s1 hl]
      simp
    | ok socket =>
      rw [hclose socket s1 hl]
      constructor
      · intro h
        exact ⟨socket, s1, rfl, h⟩
      · rintro ⟨socket1, s2, heq, h⟩
        simp only [Prod.mk.injEq, Except.ok.injEq] at heq
        obtain ⟨h1, h2⟩ := heq
        subst h1; subst h2
        exact h
  · intro bound hb
    exact ⟨"bind: address already in use", by
      simp [lib.CheckPortAvailability, Model.sockets, hb]⟩
  · intro bound hb
    simp [lib.CheckPortAvailability, Model.sockets, hb]
  · intro e s1 h
    have h1 := RegisterForEvents_of_port_error rt os l events consumer s s1 e h
    have h2 : lib.CheckPortAvailability os.withLog l.ListenerPort (s, log) =
        (some e, (s1, log)) := by
      rw [CheckPortAvailability_withLog, h]
    have h3 := RegisterForEvents_of_port_error rt.recording os.withLog l events consumer
      (s, log) (s1, log) e h2
    exact ⟨h1.1, h1.2.1, h1.2.2, by rw [h3.2.2]⟩

/-- Witness of C19: the port 8080 of the sample listener is bound; the
registration returns the error of the bind, the script is untouched, no request
is sent and no listener is started. -/
theorem port_preflight_witness :
    lib.CheckPortAvailability Sample.hostSockets Sample.listener.ListenerPort
        ([Sample.answer 200 "listing-empty"], [":8080"]) =
      (some "bind: address already in use", ([Sample.answer 200 "listing-empty"], [":8080"])) ∧
    (Sample.listener.RegisterForEvents Sample.hostRuntime Sample.hostSockets ["VM.ON"]
        "consumer" ([Sample.answer 200 "listing-empty"], [":8080"])).result =
      Outcome.returned (some "bind: address already in use") ∧
    (Sample.listener.RegisterForEvents Sample.hostRuntime Sample.hostSockets ["VM.ON"]
        "consumer" ([Sample.answer 200 "listing-empty"], [":8080"])).started = none ∧
    (Sample.listener.RegisterForEvents Sample.hostRuntime Sample.hostSockets ["VM.ON"]
        "consumer" ([Sample.answer 200 "listing-empty"], [":8080"])).world =
      ([Sample.answer 200 "listing-empty"], [":8080"]) ∧
    (Sample.listener.RegisterForEvents Sample.hostRuntime.recording
        Sample.hostSockets.withLog ["VM.ON"] "consumer"
        (([Sample.answer 200 "listing-empty"], [":8080"]), [])).world.2 = [] := by
  have h : lib.CheckPortAvailability Sample.hostSockets Sample.listener.ListenerPort
        ([Sample.answer 200 "listing-empty"], [":8080"]) =
      (some "bind: address already in use",
        ([Sample.answer 200 "listing-empty"], [":8080"])) := by
    decide
  exact ⟨h, (port_preflight Sample.hostRuntime Sample.hostSockets Sample.listener ["VM.ON"]
    "consumer" "8080" ([Sample.answer 200 "listing-empty"], [":8080"]) []).2.2.2.2.2 _ _ h⟩

/-- C20. `RegisterForEvents` starts the listener only after
`createOrUpdateWebhook` has returned a nil error: when a listener is started,
the port check returned nil, the reconciliation that followed returned nil,
and the world at the start is the world the reconciliation left; when the
reconciliation returns an error, `RegisterForEvents` returns that error and
starts no listener; and when it returns nil the listener is started, with the
event consumer given. -/
theorem listener_started_after_reconciliation {σ β τ κ : Type} (rt : Runtime σ β)
    (os : Sockets σ τ) (l : WebhooksListener) (events : List String) (consumer : κ)
    (s : σ) :
    ((l.RegisterForEvents rt os events consumer s).started ≠ none →
      ∃ s1, lib.CheckPortAvailability os l.ListenerPort s = (none, s1) ∧
        l.createOrUpdateWebhook rt events s1 =
          (Outcome.returned none, (l.RegisterForEvents rt os events consumer s).world) ∧
        (l.RegisterForEvents rt os events consumer s).result = Outcome.returned none ∧
        (l.RegisterForEvents rt os events consumer s).started = some (l, consumer)) ∧
    (∀ s1 e s2, lib.CheckPortAvailability os l.ListenerPort s = (none, s1) →
      l.createOrUpdateWebhook rt events s1 = (Outcome.returned (some e), s2) →
      (l.RegisterForEvents rt os events consumer s).result = Outcome.returned (some e) ∧
      (l.RegisterForEvents rt os events consumer s).started = none ∧
      (l.RegisterForEvents rt os events consumer s).world = s2) ∧
    (∀ s1 s2, lib.CheckPortAvailability os l.ListenerPort s = (none, s1) →
      l.createOrUpdateWebhook rt events s1 = (Outcome.panicked, s2) →
      (l.RegisterForEvents rt os events consumer s).result = Outcome.panicked ∧
      (l.RegisterForEvents rt os events consumer s).started = none) ∧
    (∀ s1 s2, lib.CheckPortAvailability os l.ListenerPort s = (none, s1) →
      l.createOrUpdateWebhook rt events s1 = (Outcome.returned none, s2) →
      (l.RegisterForEvents rt os events consumer s).result = Outcome.returned none ∧
      (l.RegisterForEvents rt os events consumer s).started = some (l, consumer) ∧
      (l.RegisterForEvents rt os events consumer s).world = s2) := by
  refine ⟨?_, ?_, ?_, ?_⟩
  · intro hstarted
    unfold RegisterForEvents at hstarted ⊢
    rcases hp : lib.CheckPortAvailability os l.ListenerPort s with ⟨pe, s1⟩
    rw [hp] at hstarted
    cases pe with
    | some e => simp at hstarted
    | none =>
      simp only at hstarted ⊢
      rcases hc : l.createOrUpdateWebhook rt events s1 with ⟨o, s2⟩
      rw [hc] at hstarted
      cases o with
      | panicked => simp at hstarted
      | returned r =>
        cases r with
        | some e => simp at hstarted
        | none => exact ⟨s1, rfl, by simp [hc], rfl, rfl⟩
  · intro s1 e s2 hp hc
    simp [RegisterForEvents, hp, hc]
  · intro s1 s2 hp hc
    simp [RegisterForEvents, hp, hc]
  · intro s1 s2 hp hc
    simp [RegisterForEvents, hp, hc]

/-- Witness of C20: with the port free, a listing that is not JSON makes the
registration return the error without starting a listener; a listing and a
create that succeed make it start the listener. -/
theorem listener_started_after_reconciliation_witness :
    ((Sample.listener.RegisterForEvents Sample.hostRuntime Sample.hostSockets ["VM.ON"]
        "consumer" ([Sample.answer 200 "<html>"], [])).result =
      Outcome.returned (some "invalid character") ∧
    (Sample.listener.RegisterForEvents Sample.hostRuntime Sample.hostSockets ["VM.ON"]
        "consumer" ([Sample.answer 200 "<html>"], [])).started = none ∧
    (Sample.listener.RegisterForEvents Sample.hostRuntime Sample.hostSockets ["VM.ON"]
        "consumer" ([Sample.answer 200 "<html>"], [])).world = ([], [])) ∧
    ((Sample.listener.RegisterForEvents Sample.hostRuntime Sample.hostSockets ["VM.ON"]
        "consumer" ([Sample.answer 200 "listing-empty",
          Sample.answer 200 "webhook-complete"], [])).result = Outcome.returned none ∧
    (Sample.listener.RegisterForEvents Sample.hostRuntime Sample.hostSockets ["VM.ON"]
        "consumer" ([Sample.answer 200 "listing-empty",
          Sample.answer 200 "webhook-complete"], [])).started =
      some (Sample.listener, "consumer") ∧
    (Sample.listener.RegisterForEvents Sample.hostRuntime Sample.hostSockets ["VM.ON"]
        "consumer" ([Sample.answer 200 "listing-empty",
          Sample.answer 200 "webhook-complete"], [])).world = ([], [])) :=
  ⟨(listener_started_after_reconciliation Sample.hostRuntime Sample.hostSockets
      Sample.listener ["VM.ON"] "consumer" ([Sample.answer 200 "<html>"], [])).2.1
      ([Sample.answer 200 "<html>"], []) "invalid character" ([], [])
      (by decide) (by decide),
    (listener_started_after_reconciliation Sample.hostRuntime Sample.hostSockets
      Sample.listener ["VM.ON"] "consumer" ([Sample.answer 200 "listing-empty",
        Sample.answer 200 "webhook-complete"], [])).2.2.2
      ([Sample.answer 200 "listing-empty", Sample.answer 200 "webhook-complete"], [])
      ([], []) (by decide) (by decide)⟩

end WebhooksListener

/-! ## `PrepareRequest`, `RemoveDuplicates` and `DoRequest`, once more -/

/-- C27. For every URL, user name, password and HTTP method, `PrepareRequest`
returns a request whose URL, method, user name and password are the arguments
and whose request data is empty. -/
theorem lib.PrepareRequest_fields (requestURL userName password httpMethod : String) :
    (lib.PrepareRequest requestURL userName password httpMethod).URL = requestURL ∧
    (lib.PrepareRequest requestURL userName password httpMethod).Method = httpMethod ∧
    (lib.PrepareRequest requestURL userName password httpMethod).Credentials.Username
      = userName ∧
    (lib.PrepareRequest requestURL userName password httpMethod).Credentials.Password
      = password ∧
    (lib.PrepareRequest requestURL userName password httpMethod).RequestData
      = schema.RequestData.empty :=
  ⟨rfl, rfl, rfl, rfl, rfl⟩

/-- C29. `RemoveDuplicates` is idempotent and never grows its input: for every
list `l`, `RemoveDuplicates (RemoveDuplicates l) = RemoveDuplicates l` and the
result is no longer than `l`; and `RemoveDuplicates l = l` for every non-empty
`l` that holds no string twice. -/
theorem lib.RemoveDuplicates_idempotent (l : List String) :
    lib.RemoveDuplicates (lib.RemoveDuplicates l) = lib.RemoveDuplicates l ∧
    (lib.RemoveDuplicates l).length ≤ l.length ∧
    (l ≠ [] → l.Nodup → lib.RemoveDuplicates l = l) := by
  refine ⟨?_, ?_, ?_⟩
  · simp only [lib.RemoveDuplicates_eq_firstOccurrences]
    exact lib.firstOccurrences_of_nodup _ (lib.nodup_firstOccurrences l)
  · rw [lib.RemoveDuplicates_eq_firstOccurrences]
    exact (lib.sublist_firstOccurrences l).length_le
  · intro _ h
    rw [lib.RemoveDuplicates_eq_firstOccurrences]
    exact lib.firstOccurrences_of_nodup l h

/-- C30. When `httpClient.Do` fails and gives no response (error non-nil,
response nil), `DoRequest` does not reach a return: the read of
`resp.StatusCode` on the failure branch dereferences the nil response. -/
theorem lib.DoRequest_transport_failure_panics {σ β : Type} (rt : Runtime σ β)
    (request : schema.Request) (s s1 : σ) (err : Option Error)
    (hnew : rt.NewRequest request = none)
    (hdo : rt.Do request s = ((none, err), s1)) :
    lib.DoRequest rt request s = (Outcome.panicked, s1) := by
  simp only [lib.DoRequest, hnew, hdo]

theorem lib.DoRequest_transport_failure_panics_witness :
    Sample.scripted.NewRequest (lib.PrepareRequest "https://www.nutanix.com/" "" "" "GET")
      = none ∧
    Sample.scripted.Do (lib.PrepareRequest "https://www.nutanix.com/" "" "" "GET") []
      = ((none, some "dial tcp: connection refused"), []) ∧
    lib.DoRequest Sample.scripted (lib.PrepareRequest "https://www.nutanix.com/" "" "" "GET")
      [] = (Outcome.panicked, []) :=
  ⟨rfl, rfl, lib.DoRequest_transport_failure_panics Sample.scripted
    (lib.PrepareRequest "https://www.nutanix.com/" "" "" "GET") [] []
    (some "dial tcp: connection refused") rfl rfl⟩

/-! ## `CheckOutboundConnectivity` -/

/-- For a local address `ip:port` whose `ip` has no colon (the form of an IPv4
address), `CheckOutboundConnectivity` returns `ip`. -/
theorem lib.CheckOutboundConnectivity_of_no_colon {σ : Type} (net : Dialer σ)
    (remoteIp remotePort ip port : String) (s s1 : σ)
    (hdial : net.Dial "tcp" (remoteIp ++ ":" ++ remotePort) s
      = (Except.ok (ip ++ ":" ++ port), s1))
    (hip : ':' ∉ ip.data) :
    lib.CheckOutboundConnectivity net remoteIp remotePort s = ((ip, none), s1) := by
  have h : ∀ (l r : List Char), ':' ∉ l →
      (l ++ ':' :: r).takeWhile (fun c => c != ':') = l := by
    intro l r hl
    induction l with
    | nil => simp
    | cons a l ih =>
      have ha : a ≠ ':' := fun e => hl (by simp [e])
      have hl2 : ':' ∉ l := fun e => hl (by simp [e])
      have hb : (a != ':') = true := by simpa using ha
      rw [List.cons_append, List.takeWhile_cons, hb, ih hl2]
      rfl
  simp only [lib.CheckOutboundConnectivity, hdial, strings.SplitColonFirst]
  have e : (ip ++ ":" ++ port).data = ip.data ++ ':' :: port.data := by
    simp [String.data_append]
  rw [e, h _ _ hip]

/-- C26. A connection made from the IPv6 local address `[2001:db8::5]:54321`:
`CheckOutboundConnectivity` returns `[2001` with a nil error, which is not the
IP part `2001:db8::5` of the address. -/
theorem lib.CheckOutboundConnectivity_ipv6 :
    lib.CheckOutboundConnectivity (Sample.dialFrom "[2001:db8::5]:54321")
      "[2001:db8::1]" "9440" [] = (("[2001", none), []) := by
  decide

/-! ## The `OnEvent` of the sample plugins -/

/-- For an event of a type other than `VM.ON` and `VM.OFF`, once the
configuration has loaded, `OnEvent` of the PAFW consumer returns nil in the world
that the loading left: nothing is done on the appliance. -/
theorem pafweventconsumer.OnEvent_of_other_type {σ γ : Type} (appliance : Appliance σ γ)
    (event : schema.Event) (pafwConfig : γ) (s s1 : σ)
    (hload : appliance.LoadConfig s = ((pafwConfig, none), s1))
    (hon : event.Event_Type ≠ "VM.ON") (hoff : event.Event_Type ≠ "VM.OFF") :
    pafweventconsumer.OnEvent appliance event s = (Outcome.returned none, s1) := by
  simp [pafweventconsumer.OnEvent, hload, lib.VM_ON, lib.VM_OFF, hon, hoff]

/-- C28. When the configuration has loaded and the processing of a `VM.ON` or
`VM.OFF` event (`onVmOn`, `onVmOff`) returns an error, `OnEvent` of the PAFW
consumer returns nil, where `OnEvent` of the F5 consumer returns the error. -/
theorem pafweventconsumer.OnEvent_drops_error {σ γ : Type} (appliance : Appliance σ γ)
    (event : schema.Event) (config : γ) (s s1 s2 : σ) (e : Error)
    (hload : appliance.LoadConfig s = ((config, none), s1))
    (hproc : (event.Event_Type = "VM.ON" ∧
        appliance.onVmOn event config s1 = (Outcome.returned (some e), s2)) ∨
      (event.Event_Type = "VM.OFF" ∧
        appliance.onVmOff event config s1 = (Outcome.returned (some e), s2))) :
    pafweventconsumer.OnEvent appliance event s = (Outcome.returned none, s2) ∧
    consumer.OnEvent appliance event s = (Outcome.returned (some e), s2) := by
  have hne : ¬ ("VM.OFF" : String) = "VM.ON" := by decide
  rcases hproc with ⟨ht, hp⟩ | ⟨ht, hp⟩
  · simp [pafweventconsumer.OnEvent, consumer.OnEvent, hload, lib.VM_ON, ht, hp]
  · simp [pafweventconsumer.OnEvent, consumer.OnEvent, hload, lib.VM_ON, lib.VM_OFF, ht, hp,
      hne]

theorem pafweventconsumer.OnEvent_drops_error_witness :
    pafweventconsumer.OnEvent
        (Sample.refusing "<response status = \x27error\x27 code = \x27403\x27>")
        { Event_Type := "VM.ON" } 0 = (Outcome.returned none, 1) ∧
    consumer.OnEvent (Sample.refusing "<response status = \x27error\x27 code = \x27403\x27>")
        { Event_Type := "VM.ON" } 0
      = (Outcome.returned (some "<response status = \x27error\x27 code = \x27403\x27>"), 1) :=
  pafweventconsumer.OnEvent_drops_error
    (Sample.refusing "<response status = \x27error\x27 code = \x27403\x27>")
    { Event_Type := "VM.ON" } () 0 0 1 "<response status = \x27error\x27 code = \x27403\x27>"
    rfl (Or.inl ⟨rfl, rfl⟩)

/-! ## `onEvent` -/

/-- C21. For every request body that does not decode as an event, `onEvent`
returns, without a panic, in the world it started in, whatever the event
consumer is: the list of the events that `OnEvent` was invoked with is what it
was, and a request served next is served as if the malformed one had not
come. -/
theorem WebhooksListener.onEvent_malformed_drop {σ β : Type}
    (UnmarshalEvent : β → Except Error schema.Event) (eventConsumer : Consumer σ)
    (eventData : β) (err : Error) (s : σ) (invoked : List schema.Event)
    (h : UnmarshalEvent eventData = Except.error err) :
    WebhooksListener.onEvent UnmarshalEvent eventConsumer.withLog (Except.ok eventData)
        (s, invoked) = (Outcome.returned (), (s, invoked)) ∧
    ∀ next : Except Error β,
      WebhooksListener.onEvent UnmarshalEvent eventConsumer.withLog next
          (WebhooksListener.onEvent UnmarshalEvent eventConsumer.withLog (Except.ok eventData)
            (s, invoked)).2
        = WebhooksListener.onEvent UnmarshalEvent eventConsumer.withLog next (s, invoked) := by
  have e : WebhooksListener.onEvent UnmarshalEvent eventConsumer.withLog (Except.ok eventData)
      (s, invoked) = (Outcome.returned (), (s, invoked)) := by
    simp only [WebhooksListener.onEvent, h]
  exact ⟨e, fun next => by rw [e]⟩

theorem WebhooksListener.onEvent_malformed_drop_witness :
    Sample.UnmarshalEvent "event: VM.ON" = Except.error "invalid character" ∧
    WebhooksListener.onEvent Sample.UnmarshalEvent Sample.keeping.withLog
        (Except.ok "event: VM.ON") ([], []) = (Outcome.returned (), ([], [])) :=
  ⟨rfl, (WebhooksListener.onEvent_malformed_drop Sample.UnmarshalEvent Sample.keeping
    "event: VM.ON" "invalid character" [] [] rfl).1⟩

/-- C22. For every request body that decodes as an event, `onEvent` invokes
`OnEvent` of the registered event consumer exactly once, with the decoded
event, whatever the type of the event: the list of the events that `OnEvent` was
invoked with grows by the decoded event, the world is the one that this call of
`OnEvent` leaves, and `onEvent` returns unless that call panics. -/
theorem WebhooksListener.onEvent_dispatch {σ β : Type}
    (UnmarshalEvent : β → Except Error schema.Event)
    (OnEvent : schema.Event → σ → Outcome (Option Error) × σ)
    (eventData : β) (event : schema.Event) (s : σ) (invoked : List schema.Event)
    (h : UnmarshalEvent eventData = Except.ok event) :
    (WebhooksListener.onEvent UnmarshalEvent (Consumer.consumer OnEvent).withLog
        (Except.ok eventData) (s, invoked)).2 = ((OnEvent event s).2, invoked ++ [event]) ∧
    (WebhooksListener.onEvent UnmarshalEvent (Consumer.consumer OnEvent).withLog
        (Except.ok eventData) (s, invoked)).1
      = (match (OnEvent event s).1 with
        | Outcome.panicked => Outcome.panicked
        | Outcome.returned _ => Outcome.returned ()) := by
  simp only [WebhooksListener.onEvent, h, Consumer.withLog]
  rcases ho : OnEvent event s with ⟨o, s1⟩
  cases o <;> simp

theorem WebhooksListener.onEvent_dispatch_witness :
    Sample.UnmarshalEvent "vm-update"
      = Except.ok
        { Event_Type := "VM.UPDATE", Data := { Metadata := { Status := { Name := "web-1" } } } } ∧
    (WebhooksListener.onEvent Sample.UnmarshalEvent
        (Consumer.consumer (fun event events =>
          (Outcome.returned none, events ++ [event]))).withLog
        (Except.ok "vm-update") ([], [])).2
      = ([{ Event_Type := "VM.UPDATE",
            Data := { Metadata := { Status := { Name := "web-1" } } } }],
         [{ Event_Type := "VM.UPDATE",
            Data := { Metadata := { Status := { Name := "web-1" } } } }]) :=
  ⟨rfl, (WebhooksListener.onEvent_dispatch Sample.UnmarshalEvent
    (fun event events => (Outcome.returned none, events ++ [event]))
    "vm-update"
    { Event_Type := "VM.UPDATE", Data := { Metadata := { Status := { Name := "web-1" } } } }
    [] [] rfl).1⟩

/-! ## `Initialize` -/

/-- The connectivity check in terms of the dial: on a connection made, the local
address up to its first colon, with a nil error. -/
theorem lib.CheckOutboundConnectivity_ok {σ : Type} (net : Dialer σ)
    (remoteIp remotePort localAddr : String) (s s1 : σ)
    (h : net.Dial "tcp" (remoteIp ++ ":" ++ remotePort) s = (Except.ok localAddr, s1)) :
    lib.CheckOutboundConnectivity net remoteIp remotePort s
      = ((strings.SplitColonFirst localAddr, none), s1) := by
  simp only [lib.CheckOutboundConnectivity, h]

theorem lib.CheckOutboundConnectivity_error {σ : Type} (net : Dialer σ)
    (remoteIp remotePort : String) (err : Error) (s s1 : σ)
    (h : net.Dial "tcp" (remoteIp ++ ":" ++ remotePort) s = (Except.error err, s1)) :
    lib.CheckOutboundConnectivity net remoteIp remotePort s = (("", some err), s1) := by
  simp only [lib.CheckOutboundConnectivity, h]

/-- When the dial fails, `Initialize` returns its error, in the world that the
dial left. -/
theorem WebhooksListener.Initialize_of_dial_error {σ β : Type} (rt : Runtime σ β)
    (net : Dialer σ) (l : WebhooksListener) (ip port username password : String) (s s1 : σ)
    (err : Error)
    (h : net.Dial "tcp" (ip ++ ":" ++ port) s = (Except.error err, s1)) :
    WebhooksListener.Initialize rt net l ip port username password s
      = (Outcome.returned
          (WebhooksListener.Initialize.expected l ip port username password l.listenerIp,
            some err), s1) := by
  have hc := lib.CheckOutboundConnectivity_error net ip port err s s1 h
  by_cases hp : l.ListenerPort = ""
  · simp [WebhooksListener.Initialize, WebhooksListener.Initialize.expected, hp, hc,
      lib.DefaultListenerPort]
  · simp [WebhooksListener.Initialize, WebhooksListener.Initialize.expected, hp, hc]

/-- When the connection is made, `Initialize` sends the credential check and
goes by its result. -/
theorem WebhooksListener.Initialize_of_dial_ok {σ β : Type} (rt : Runtime σ β)
    (net : Dialer σ) (l : WebhooksListener) (ip port username password localAddr : String)
    (s s1 : σ)
    (h : net.Dial "tcp" (ip ++ ":" ++ port) s = (Except.ok localAddr, s1)) :
    WebhooksListener.Initialize rt net l ip port username password s
      = (match lib.DoRequest rt
            (WebhooksListener.Initialize.credentialCheck ip port username password) s1 with
        | (Outcome.panicked, s2) => (Outcome.panicked, s2)
        | (Outcome.returned (_, some err), s2) =>
          (Outcome.returned (WebhooksListener.Initialize.expected l ip port username password
            (strings.SplitColonFirst localAddr), some err), s2)
        | (Outcome.returned (none, none), s2) => (Outcome.panicked, s2)
        | (Outcome.returned (some response, none), s2) =>
          if response.StatusCode ≠ 200 then
            (Outcome.returned (WebhooksListener.Initialize.expected l ip port username password
              (strings.SplitColonFirst localAddr),
              some ("Error verifying cluster credentials. HTTP status code : " ++
                toString response.StatusCode)), s2)
          else
            (Outcome.returned (WebhooksListener.Initialize.expected l ip port username password
              (strings.SplitColonFirst localAddr), none), s2)) := by
  have hc := lib.CheckOutboundConnectivity_ok net ip port localAddr s s1 h
  have hr : ∀ lp li : String, lib.PrepareRequest
      (WebhooksListener.clusterURL
        { ListenerPort := lp, clusterIp := ip, clusterPort := port, clusterUsername := username,
          clusterPassword := password, listenerIp := li } lib.GetCurrentUser)
      username password "GET"
      = WebhooksListener.Initialize.credentialCheck ip port username password := by
    intro lp li; rfl
  by_cases hp : l.ListenerPort = ""
  · simp only [WebhooksListener.Initialize, WebhooksListener.Initialize.expected, hp, hc,
      lib.DefaultListenerPort, if_true, hr]
  · simp only [WebhooksListener.Initialize, WebhooksListener.Initialize.expected, hp, hc,
      if_false, hr]

/-- Whenever `Initialize` returns, it returns the receiver with the port
defaulted and the cluster fields set, and some local address. -/
theorem WebhooksListener.Initialize_returned {σ β : Type} (rt : Runtime σ β) (net : Dialer σ)
    (l l1 : WebhooksListener) (ip port username password : String) (s s1 : σ)
    (e : Option Error)
    (h : WebhooksListener.Initialize rt net l ip port username password s
      = (Outcome.returned (l1, e), s1)) :
    ∃ localIp, l1 = WebhooksListener.Initialize.expected l ip port username password localIp := by
  rcases hd : net.Dial "tcp" (ip ++ ":" ++ port) s with ⟨err | localAddr, s0⟩
  · rw [WebhooksListener.Initialize_of_dial_error rt net l ip port username password s s0 err hd]
      at h
    simp only [Prod.mk.injEq, Outcome.returned.injEq] at h
    exact ⟨_, h.1.1.symm⟩
  · rw [WebhooksListener.Initialize_of_dial_ok rt net l ip port username password localAddr
      s s0 hd] at h
    split at h
    · simp at h
    · simp only [Prod.mk.injEq, Outcome.returned.injEq] at h
      exact ⟨_, h.1.1.symm⟩
    · simp at h
    · split_ifs at h
      · simp only [Prod.mk.injEq, Outcome.returned.injEq] at h
        exact ⟨_, h.1.1.symm⟩
      · simp only [Prod.mk.injEq, Outcome.returned.injEq] at h
        exact ⟨_, h.1.1.symm⟩

/-- C24. `Initialize` returns a nil error if and only if the connection to the
cluster is made and the credential check, a `GET` of
`/api/nutanix/v3/users/me`, is answered with HTTP 200 and no error; and when
the connection fails, `Initialize` returns the error of the dial in the world
that this one dial left, with no request handed to the HTTP client. -/
theorem WebhooksListener.Initialize_nil_error_iff {σ β : Type} (rt : Runtime σ β)
    (net : Dialer σ) (l : WebhooksListener) (ip port username password : String) (s : σ) :
    ((∃ l1 s1, WebhooksListener.Initialize rt net l ip port username password s
        = (Outcome.returned (l1, none), s1)) ↔
      ∃ localAddr s0 response s1,
        net.Dial "tcp" (ip ++ ":" ++ port) s = (Except.ok localAddr, s0) ∧
        rt.NewRequest (WebhooksListener.Initialize.credentialCheck ip port username password)
          = none ∧
        rt.Do (WebhooksListener.Initialize.credentialCheck ip port username password) s0
          = ((some response, none), s1) ∧
        response.StatusCode = 200) ∧
    (∀ err s0, net.Dial "tcp" (ip ++ ":" ++ port) s = (Except.error err, s0) →
      ∀ sent : List schema.Request, ∃ l1,
        WebhooksListener.Initialize rt.recording net.withLog l ip port username password
          (s, sent) = (Outcome.returned (l1, some err), (s0, sent))) := by
  refine ⟨⟨?_, ?_⟩, ?_⟩
  · rintro ⟨l1, s1, h⟩
    rcases hd : net.Dial "tcp" (ip ++ ":" ++ port) s with ⟨err | localAddr, s0⟩
    · rw [WebhooksListener.Initialize_of_dial_error rt net l ip port username password s s0 err
        hd] at h
      simp at h
    · rw [WebhooksListener.Initialize_of_dial_ok rt net l ip port username password localAddr
        s s0 hd] at h
      refine ⟨localAddr, s0, ?_⟩
      cases hn : rt.NewRequest
          (WebhooksListener.Initialize.credentialCheck ip port username password) with
      | some e => simp [lib.DoRequest, hn] at h
      | none =>
        rcases hdo : rt.Do
            (WebhooksListener.Initialize.credentialCheck ip port username password) s0
          with ⟨⟨resp, e⟩, s2⟩
        cases resp with
        | none => simp [lib.DoRequest, hn, hdo] at h
        | some response =>
          rw [lib.DoRequest_of_response rt _ s0 s2 response e hn hdo] at h
          cases e with
          | some e => simp at h
          | none =>
            simp only at h
            split_ifs at h with hs
            · simp at h
            · simp only [Prod.mk.injEq] at h
              exact ⟨response, s1, rfl, rfl, by rw [h.2], by simpa using hs⟩
  · rintro ⟨localAddr, s0, response, s1, hd, hn, hdo, hs⟩
    refine ⟨WebhooksListener.Initialize.expected l ip port username password
      (strings.SplitColonFirst localAddr), s1, ?_⟩
    rw [WebhooksListener.Initialize_of_dial_ok rt net l ip port username password localAddr
      s s0 hd, lib.DoRequest_of_response rt _ s0 s1 response none hn hdo]
    simp only [hs, ne_eq, not_true_eq_false, if_false]
  · intro err s0 hd sent
    refine ⟨_, WebhooksListener.Initialize_of_dial_error rt.recording net.withLog l ip port
      username password (s, sent) (s0, sent) err ?_⟩
    simp only [Dialer.withLog, hd]

/-- C25. The listener that `Initialize` returns has the default port `8080`
when the port of the receiver is unset (empty) and the port of the receiver
otherwise, and its cluster IP, port, user name and password are the arguments
given. -/
theorem WebhooksListener.Initialize_listener {σ β : Type} (rt : Runtime σ β) (net : Dialer σ)
    (l l1 : WebhooksListener) (ip port username password : String) (s s1 : σ)
    (e : Option Error)
    (h : WebhooksListener.Initialize rt net l ip port username password s
      = (Outcome.returned (l1, e), s1)) :
    l1.ListenerPort = (if l.ListenerPort = "" then "8080" else l.ListenerPort) ∧
    l1.clusterIp = ip ∧ l1.clusterPort = port ∧
    l1.clusterUsername = username ∧ l1.clusterPassword = password := by
  obtain ⟨localIp, rfl⟩ :=
    WebhooksListener.Initialize_returned rt net l l1 ip port username password s s1 e h
  exact ⟨rfl, rfl, rfl, rfl, rfl⟩

theorem WebhooksListener.Initialize_listener_witness :
    WebhooksListener.Initialize Sample.scripted (Sample.dialFrom "10.0.0.5:54321") {}
        "10.0.0.1" "9440" "admin" "secret" [Sample.answer 200 "user"]
      = (Outcome.returned
          ({ ListenerPort := "8080", clusterIp := "10.0.0.1", clusterPort := "9440"
             clusterUsername := "admin", clusterPassword := "secret"
             listenerIp := "10.0.0.5" }, none), []) ∧
    (("8080" : String) = (if (({} : WebhooksListener).ListenerPort = "") then "8080"
        else ({} : WebhooksListener).ListenerPort) ∧
      "10.0.0.1" = "10.0.0.1" ∧ "9440" = "9440" ∧ "admin" = "admin" ∧ "secret" = "secret") :=
  ⟨by decide, WebhooksListener.Initialize_listener Sample.scripted
    (Sample.dialFrom "10.0.0.5:54321") {}
    { ListenerPort := "8080", clusterIp := "10.0.0.1", clusterPort := "9440"
      clusterUsername := "admin", clusterPassword := "secret", listenerIp := "10.0.0.5" }
    "10.0.0.1" "9440" "admin" "secret" [Sample.answer 200 "user"] [] none (by decide)⟩

/-! ## `startListener` -/

/-- C23. In every run of `startListener` the operations on `ListenerState` are
the first ones of this list, and all of it when the run returns: a send of the
starting message, then on a server error a send of an error message, then one
send of `Listener Closed`, then one close, after which the channel is closed and
nothing else is done on it. A run returns, with the error of the server, when
the channel is open, its receiver takes three messages and the server
returns. -/
theorem WebhooksListener.startListener_protocol {σ : Type} (srv : Server σ)
    (l : WebhooksListener) (s : σ) (ch : Chan) :
    (∃ done err, (WebhooksListener.startListener srv l s ch).2.2.ops = ch.ops ++ done ∧
      done <+: WebhooksListener.startListener.protocol err) ∧
    (∀ err, (WebhooksListener.startListener srv l s ch).1 = Run.returned err →
      (WebhooksListener.startListener srv l s ch).2.2.ops
        = ch.ops ++ WebhooksListener.startListener.protocol err ∧
      (WebhooksListener.startListener srv l s ch).2.2.closed = true) ∧
    (∀ err s1 s2, ch.closed = false → 3 ≤ ch.room →
      srv.HandleFunc "/listener/callback" s = (Outcome.returned (), s1) →
      srv.ListenAndServe (":" ++ (if l.ListenerPort = "" then "8080" else l.ListenerPort)) s1
        = (some err, s2) →
      WebhooksListener.startListener srv l s ch
        = (Run.returned err, s2,
          { ops := ch.ops ++ WebhooksListener.startListener.protocol err, closed := true
            room := ch.room - ((WebhooksListener.startListener.protocol err).length - 1) })) := by
  have hport : (":" ++ (if l.ListenerPort = "" then
      { l with ListenerPort := lib.DefaultListenerPort } else l).ListenerPort)
      = ":" ++ (if l.ListenerPort = "" then "8080" else l.ListenerPort) := by
    split_ifs <;> rfl
  obtain ⟨ops, closed, room⟩ := ch
  rcases hh : srv.HandleFunc "/listener/callback" s with ⟨_ | _, s1⟩ <;>
  rcases hl : srv.ListenAndServe
    (":" ++ (if l.ListenerPort = "" then "8080" else l.ListenerPort)) s1 with ⟨_ | _ | e, s2⟩ <;>
  cases closed <;>
  rcases room with _ | _ | _ | room <;>
  simp [WebhooksListener.startListener, hport, Chan.send, Chan.close, hh, hl,
    lib.ListenerCallbackURL, WebhooksListener.startListener.protocol]
  · intro err s1a s2a h1 h2
    subst h1
    rw [hl] at h2
    simp at h2
  · exact ⟨none, ⟨[], List.append_nil _⟩⟩
  · refine ⟨⟨none, ⟨[], List.append_nil _⟩⟩, ?_⟩
    intro err s1a s2a h1 h2
    subst h1
    rw [hl] at h2
    simp only [Prod.mk.injEq, Option.some.injEq] at h2
    obtain ⟨rfl, rfl⟩ := h2
    simp
  · exact ⟨some e, by simp⟩
  · refine ⟨⟨some e, ⟨[], List.append_nil _⟩⟩, ?_⟩
    intro err s1a s2a h1 h2
    subst h1
    rw [hl] at h2
    simp only [Prod.mk.injEq, Option.some.injEq] at h2
    obtain ⟨rfl, rfl⟩ := h2
    simp

/-- A run on a port that is taken: the server returns at once with its error,
and the receiver sees the three messages and the close. -/
theorem WebhooksListener.startListener_port_taken :
    WebhooksListener.startListener
        (Sample.failing (some "listen tcp :8080: bind: address already in use"))
        Sample.listener () { room := 3 }
      = (Run.returned (some "listen tcp :8080: bind: address already in use"), (),
          { ops := [ChanOp.send "Starting HTTP Listener ..",
              ChanOp.send "Error occured: listen tcp :8080: bind: address already in use",
              ChanOp.send "Listener Closed", ChanOp.close]
            closed := true, room := 0 }) := by
  decide

/-- A run whose server serves for ever: the starting message is all that is
sent. -/
theorem WebhooksListener.startListener_serving :
    WebhooksListener.startListener Sample.serving Sample.listener () { room := 3 }
      = (Run.blocked, (),
          { ops := [ChanOp.send "Starting HTTP Listener .."], closed := false, room := 2 }) := by
  decide

namespace WebhooksListener.createOrUpdateWebhook

/-! ## Locate and mutate

The cluster gives every webhook it stores an identifier, and the code puts that
identifier into the URL of the update and of the get-by-ID request. The
statements of this section are about listings as the cluster sends them: the
webhooks listed have a non-empty identifier. -/

/-- A request that `DoRequest` sends for `request` is `request`. -/
theorem eq_of_mem_sent {σ β : Type} (rt : Runtime σ β) (request x : schema.Request)
    (h : x ∈ rt.sent request) : x = request := by
  unfold Runtime.sent at h
  split_ifs at h
  · cases h
  · exact List.mem_singleton.1 h

/-- When some listed webhook has the callback URL, the loop finds the first of
them. -/
theorem find_of_match (p : String) (es : List schema.Webhook)
    (h : ∃ w ∈ es, w.Spec.Resources.PostURL = p) :
    ∃ w, es.find? (fun x => decide (x.Spec.Resources.PostURL = p)) = some w := by
  cases hf : es.find? (fun x => decide (x.Spec.Resources.PostURL = p)) with
  | some w => exact ⟨w, rfl⟩
  | none =>
    rw [List.find?_eq_none] at hf
    obtain ⟨w, hw, hp⟩ := h
    exact absurd (by simpa using hp) (hf w hw)

/-- The webhook that the loop finds is listed and has the callback URL. -/
theorem mem_of_find (p : String) (es : List schema.Webhook) (w : schema.Webhook)
    (h : es.find? (fun x => decide (x.Spec.Resources.PostURL = p)) = some w) :
    w ∈ es ∧ w.Spec.Resources.PostURL = p :=
  ⟨List.mem_of_find?_eq_some h, by simpa using List.find?_some h⟩

/-- The update request for the webhook found, when it has an identifier. -/
theorem webhookRequest_of_find (l : WebhooksListener) (c : schema.CurrentWebhooks)
    (events : List String) (w : schema.Webhook)
    (hmatch : c.Entities.find?
      (fun x => decide (x.Spec.Resources.PostURL = l.postUrl)) = some w)
    (huuid : w.Metadata.UUID ≠ "") :
    webhookRequest l c events =
      prepare l (l.clusterURL lib.UpdateWebhook ++ w.Metadata.UUID) "PUT"
        (lib.RemoveDuplicates (w.Spec.Resources.EventsFilterList ++ events))
        w.Metadata.SpecVersion := by
  have hw := webhookToUpdate_of_find l.postUrl c.Entities w hmatch
  rw [webhookRequest_update l c events (by rw [hw]; exact huuid), hw]

/-- C6. Locate and mutate: for every listing of webhooks with identifiers, the
request that `createOrUpdateWebhook` builds is an update exactly when some
listed webhook has the callback URL of the listener; it is then a PUT to the
update URL of the first listed webhook with that URL, not a POST to the create
URL, and in a run that decodes this listing no request sent is a create, and the
update is sent unless `http.NewRequest` rejects it. -/
theorem update_iff_url_match (l : WebhooksListener) (c : schema.CurrentWebhooks)
    (events : List String)
    (hids : ∀ w ∈ c.Entities, w.Metadata.UUID ≠ "") :
    ((webhookRequest l c events).Method = "PUT" ↔
      ∃ w ∈ c.Entities, w.Spec.Resources.PostURL = l.postUrl) ∧
    ((∃ w ∈ c.Entities, w.Spec.Resources.PostURL = l.postUrl) →
      (∃ w, c.Entities.find? (fun x => decide (x.Spec.Resources.PostURL = l.postUrl)) = some w ∧
        (webhookRequest l c events).URL = l.clusterURL lib.UpdateWebhook ++ w.Metadata.UUID) ∧
      ¬ ((webhookRequest l c events).Method = "POST" ∧
        (webhookRequest l c events).URL = l.clusterURL lib.CreateWebhook) ∧
      ∀ (σ β : Type) (rt : Runtime σ β) (s s1 : σ),
        decodedListing rt l s = some (c, s1) →
        (∀ request ∈ (l.createOrUpdateWebhook rt.recording events (s, [])).2.2,
          ¬ (request.Method = "POST" ∧ request.URL = l.clusterURL lib.CreateWebhook)) ∧
        (rt.NewRequest (webhookRequest l c events) = none →
          webhookRequest l c events ∈
            (l.createOrUpdateWebhook rt.recording events (s, [])).2.2)) := by
  have hput : (∃ w ∈ c.Entities, w.Spec.Resources.PostURL = l.postUrl) →
      ∃ w, c.Entities.find? (fun x => decide (x.Spec.Resources.PostURL = l.postUrl)) = some w ∧
        webhookRequest l c events =
          prepare l (l.clusterURL lib.UpdateWebhook ++ w.Metadata.UUID) "PUT"
            (lib.RemoveDuplicates (w.Spec.Resources.EventsFilterList ++ events))
            w.Metadata.SpecVersion := by
    intro h
    obtain ⟨w, hw⟩ := find_of_match l.postUrl c.Entities h
    exact ⟨w, hw, webhookRequest_of_find l c events w hw
      (hids w (mem_of_find l.postUrl c.Entities w hw).1)⟩
  have hne : ¬ ("PUT" : String) = "POST" := by decide
  refine ⟨⟨?_, ?_⟩, ?_⟩
  · intro h
    have h1 := (webhookRequest_method_put_iff l c events).1 h
    exact ⟨_, (webhookToUpdate_mem l.postUrl c.Entities h1).1,
      (webhookToUpdate_mem l.postUrl c.Entities h1).2⟩
  · intro h
    obtain ⟨w, -, hr⟩ := hput h
    rw [hr]; rfl
  · intro h
    obtain ⟨w, hw, hr⟩ := hput h
    have hm : (webhookRequest l c events).Method = "PUT" := by rw [hr]; rfl
    have hnc : ¬ ((webhookRequest l c events).Method = "POST" ∧
        (webhookRequest l c events).URL = l.clusterURL lib.CreateWebhook) := by
      rw [hm]; exact fun h => hne h.1
    refine ⟨⟨w, hw, by rw [hr]; rfl⟩, hnc, ?_⟩
    intro σ β rt s s1 hlist
    rw [createOrUpdateWebhook_recording]
    have hsl : rt.sent (listRequest l) = [listRequest l] := by
      unfold decodedListing at hlist
      rcases hd : lib.DoRequest rt (listRequest l) s with ⟨o, s2⟩
      rw [hd] at hlist
      cases o with
      | panicked => simp at hlist
      | returned a =>
        obtain ⟨resp, err⟩ := a
        cases resp with
        | none => simp at hlist
        | some response => exact sent_of_DoRequest rt _ s s2 response err hd
    simp only [List.nil_append, expectedRequests, hlist, hsl]
    refine ⟨?_, ?_⟩
    · intro request hreq
      have hlistne : ¬ ((listRequest l).Method = "POST" ∧
          (listRequest l).URL = l.clusterURL lib.CreateWebhook) := by
        intro hx
        have h2 : l.clusterURL lib.ListWebhooks = l.clusterURL lib.CreateWebhook := hx.2
        rw [clusterURL_eq_iff] at h2
        exact absurd h2 (by decide)
      simp only [List.singleton_append, List.mem_cons, List.mem_append] at hreq
      rcases hreq with rfl | hreq | hreq
      · exact hlistne
      · rw [eq_of_mem_sent rt _ _ hreq]; exact hnc
      · cases hp : pendingUUID rt (webhookRequest l c events) s1 with
        | none => rw [hp] at hreq; cases hreq
        | some uuid =>
          rw [hp] at hreq
          rw [eq_of_mem_sent rt _ _ hreq]
          intro hx
          have h3 : ("GET" : String) = "POST" := hx.1
          exact absurd h3 (by decide)
    · intro hn
      have hs : rt.sent (webhookRequest l c events) = [webhookRequest l c events] := by
        simp [Runtime.sent, hn]
      rw [hs]
      simp

/-- Witness of C6: the listing holds the webhook `u-1` of the listener, which
asks for one more event. -/
theorem update_iff_url_match_witness :
    (∀ w ∈ (Sample.listing [Sample.subscription "u-1"
        "http://10.0.0.5:8080/listener/callback" ["VM.ON"] 3]).Entities,
      w.Metadata.UUID ≠ "") ∧
    (webhookRequest Sample.listener (Sample.listing [Sample.subscription "u-1"
        "http://10.0.0.5:8080/listener/callback" ["VM.ON"] 3]) ["VM.OFF"]).Method = "PUT" ∧
    ¬ ((webhookRequest Sample.listener (Sample.listing [Sample.subscription "u-1"
        "http://10.0.0.5:8080/listener/callback" ["VM.ON"] 3]) ["VM.OFF"]).Method = "POST" ∧
      (webhookRequest Sample.listener (Sample.listing [Sample.subscription "u-1"
        "http://10.0.0.5:8080/listener/callback" ["VM.ON"] 3]) ["VM.OFF"]).URL =
        Sample.listener.clusterURL lib.CreateWebhook) := by
  have hids : ∀ w ∈ (Sample.listing [Sample.subscription "u-1"
        "http://10.0.0.5:8080/listener/callback" ["VM.ON"] 3]).Entities,
      w.Metadata.UUID ≠ "" := by decide
  have hmatch : ∃ w ∈ (Sample.listing [Sample.subscription "u-1"
        "http://10.0.0.5:8080/listener/callback" ["VM.ON"] 3]).Entities,
      w.Spec.Resources.PostURL = Sample.listener.postUrl :=
    ⟨Sample.subscription "u-1" "http://10.0.0.5:8080/listener/callback" ["VM.ON"] 3,
      by decide, by decide⟩
  have h := update_iff_url_match Sample.listener (Sample.listing [Sample.subscription "u-1"
    "http://10.0.0.5:8080/listener/callback" ["VM.ON"] 3]) ["VM.OFF"] hids
  exact ⟨hids, h.1.2 hmatch, (h.2 hmatch).2.1⟩

/-- C8. Update path: when a listed webhook has the callback URL of the listener
(`w` being the first such, with the identifier the cluster gave it), the
request built is a PUT to
`https://{clusterIp}:{clusterPort}/api/nutanix/v3/webhooks/{UUID of w}` whose
body carries the `spec_version` of `w`, unchanged, and the callback URL as
`post_url`. -/
theorem update_request (l : WebhooksListener) (c : schema.CurrentWebhooks)
    (events : List String) (w : schema.Webhook)
    (hmatch : c.Entities.find?
      (fun x => decide (x.Spec.Resources.PostURL = l.postUrl)) = some w)
    (huuid : w.Metadata.UUID ≠ "") :
    webhookRequest l c events =
      { Method := "PUT"
        URL := "https://" ++ l.clusterIp ++ ":" ++ l.clusterPort ++
          "/api/nutanix/v3/webhooks/" ++ w.Metadata.UUID
        RequestData := schema.RequestData.creationSpec
          { Metadata := { Kind := "webhook", SpecVersion := w.Metadata.SpecVersion }
            Spec := { Name := "Nutanix_Listener_Webhook_" ++ l.listenerIp
                      Resources :=
                        { PostUrl := "http://" ++ l.listenerIp ++ ":" ++ l.ListenerPort ++
                            "/listener/callback"
                          EventsFilterList :=
                            lib.RemoveDuplicates (w.Spec.Resources.EventsFilterList ++ events) }
                      Description := "" }
            ApiVersion := "3.0" }
        Credentials := { Username := l.clusterUsername, Password := l.clusterPassword }
        Transport := some { InsecureSkipVerify := true } } := by
  rw [webhookRequest_of_find l c events w hmatch huuid]
  rfl

/-- Witness of C8: of two listed webhooks the second has the callback URL of
the listener, with the version 7. -/
theorem update_request_witness :
    (Sample.listing [Sample.subscription "u-9090" "http://10.0.0.5:9090/listener/callback"
        ["VM.ON"] 1,
      Sample.subscription "u-1" "http://10.0.0.5:8080/listener/callback"
        ["VM.ON"] 7]).Entities.find?
      (fun x => decide (x.Spec.Resources.PostURL = Sample.listener.postUrl)) =
      some (Sample.subscription "u-1" "http://10.0.0.5:8080/listener/callback" ["VM.ON"] 7) ∧
    webhookRequest Sample.listener
      (Sample.listing [Sample.subscription "u-9090" "http://10.0.0.5:9090/listener/callback"
        ["VM.ON"] 1,
      Sample.subscription "u-1" "http://10.0.0.5:8080/listener/callback"
        ["VM.ON"] 7]) ["VM.OFF"] =
      { Method := "PUT"
        URL := "https://10.0.0.1:9440/api/nutanix/v3/webhooks/u-1"
        RequestData := schema.RequestData.creationSpec
          { Metadata := { Kind := "webhook", SpecVersion := 7 }
            Spec := { Name := "Nutanix_Listener_Webhook_10.0.0.5"
                      Resources :=
                        { PostUrl := "http://10.0.0.5:8080/listener/callback"
                          EventsFilterList := ["VM.ON", "VM.OFF"] }
                      Description := "" }
            ApiVersion := "3.0" }
        Credentials := { Username := "admin", Password := "secret" }
        Transport := some { InsecureSkipVerify := true } } := by
  have hm : (Sample.listing [Sample.subscription "u-9090"
        "http://10.0.0.5:9090/listener/callback" ["VM.ON"] 1,
      Sample.subscription "u-1" "http://10.0.0.5:8080/listener/callback"
        ["VM.ON"] 7]).Entities.find?
      (fun x => decide (x.Spec.Resources.PostURL = Sample.listener.postUrl)) =
      some (Sample.subscription "u-1" "http://10.0.0.5:8080/listener/callback" ["VM.ON"] 7) := by
    decide
  refine ⟨hm, ?_⟩
  rw [update_request Sample.listener _ ["VM.OFF"] _ hm (by decide)]
  decide

end WebhooksListener.createOrUpdateWebhook

end NetworkEventListener
